import Mathlib

/-!
Verification of the symulate-sdk in-memory stateful collection engine.

The definitions below are a shallow embedding of the TypeScript source:
 - `DataStore` (src/unnamed/part_000): CRUD, filter/sort/paginate query,
   coordinated initialization (`initializeAllCollections`), persistence
   delegation;
 - `generateWithFaker` / `generateSingleValue` (src/src/defineCollection.ts,
   lines 1255-1356): seed-data generation with FK value pools;
 - `buildResponseFromSchema` / `calculateMetaField`
   (src/src/defineCollection.ts, lines 138-266): response-envelope building
   with aggregate metadata fields.

JavaScript values are modelled by the inductive `Value` below.  Numbers are
modelled as rationals (no floating point rounding is exercised by any claim;
NaN and -0 are not modelled).  Numeric-string coercion (`Number("5")`) is not
modelled: `toNumber` maps every string to `none` (NaN), which is the case the
source actually exercises.  Wall-clock timestamps (`new Date().toISOString()`)
and random sources (`Math.random`, faker) are passed in explicitly: times as
`String` parameters, randomness as a `List Nat` entropy stream.
-/

namespace Symulate

/-- Scalar (non-object) JavaScript values that appear inside arrays. -/
inductive Scalar where
  | sNull
  | sBool (b : Bool)
  | sNum (q : ℚ)
  | sStr (s : String)
deriving DecidableEq, Repr

/-- JavaScript values stored in record fields and used in filters. -/
inductive Value where
  | vUndef
  | vNull
  | vBool (b : Bool)
  | vNum (q : ℚ)
  | vStr (s : String)
  | vArr (elems : List Scalar)
deriving DecidableEq, Repr

def Scalar.toValue : Scalar → Value
  | .sNull => .vNull
  | .sBool b => .vBool b
  | .sNum q => .vNum q
  | .sStr s => .vStr s

/-- JavaScript truthiness of a `Value`. -/
def Value.truthy : Value → Bool
  | .vUndef => false
  | .vNull => false
  | .vBool b => b
  | .vNum q => decide (q ≠ 0)
  | .vStr s => decide (s ≠ "")
  | .vArr _ => true

/-- `ToNumber` coercion, partially: `none` stands for NaN.  Strings are mapped
to `none`; numeric-string parsing is not modelled. -/
def toNumber : Value → Option ℚ
  | .vNum q => some q
  | .vBool b => some (if b then 1 else 0)
  | .vNull => some 0
  | .vUndef => none
  | .vStr _ => none
  | .vArr _ => none

/-- JavaScript `a < b`: string-string comparisons are lexicographic (the same
relation as `String <`, by `String.lt_iff_toList_lt`, stated on the character
lists so that it evaluates), all other comparisons go through `ToNumber`; a
NaN operand yields `false`. -/
def jsLt (a b : Value) : Bool :=
  match a, b with
  | .vStr s, .vStr t => decide (s.data < t.data)
  | _, _ =>
    match toNumber a, toNumber b with
    | some x, some y => decide (x < y)
    | _, _ => false

/-- JavaScript `a > b`. -/
def jsGt (a b : Value) : Bool := jsLt b a

/-- JavaScript `a <= b` (false when an operand converts to NaN). -/
def jsLe (a b : Value) : Bool :=
  match a, b with
  | .vStr s, .vStr t => decide (¬ t.data < s.data)
  | _, _ =>
    match toNumber a, toNumber b with
    | some x, some y => decide (x ≤ y)
    | _, _ => false

/-- JavaScript `a >= b`. -/
def jsGe (a b : Value) : Bool := jsLe b a

/-- A record: a JavaScript object, modelled as an association list from field
name to value (first binding wins on lookup; the engine never creates
duplicate keys). -/
abbrev RecordV := List (String × Value)

/-- `item[key]`: reading an absent property yields `undefined`. -/
def getField (r : RecordV) (k : String) : Value :=
  ((r.lookup k).getD .vUndef)

/-- JavaScript object spread `{...base, ...overlay}`.  Records are only ever
observed through `getField`, so the spread is modelled as the concatenation
with the overlay first (first binding wins on lookup, hence the overlay wins
on common keys, as in JavaScript). -/
def spreadR (base overlay : RecordV) : RecordV :=
  overlay ++ base

theorem getField_spreadR_of_mem (base overlay : RecordV) (k : String)
    (h : (overlay.lookup k).isSome) :
    getField (spreadR base overlay) k = getField overlay k := by
  unfold getField spreadR
  rw [List.lookup_append]
  cases hov : overlay.lookup k with
  | none => rw [hov] at h; simp at h
  | some v => simp

theorem getField_spreadR_of_not_mem (base overlay : RecordV) (k : String)
    (h : overlay.lookup k = none) :
    getField (spreadR base overlay) k = getField base k := by
  unfold getField spreadR
  rw [List.lookup_append, h, Option.none_or]

/-! ### Filtering (`DataStore.applyFilters`, src/unnamed/part_000 lines 446-472)

A filter is a flat map from field name to either a literal value or an
operator object.  The source dispatches on `typeof value !== 'object'`:
`undefined` entries are skipped up front (`if (value === undefined) return
true`), non-object values are compared with `===`, and object values go
through the `$eq`/`$ne`/... operator chain.  A literal `null` filter value
makes the source throw a `TypeError` (`null.$eq`), so it is excluded from the
model's filter-value type; literal arrays have `typeof === 'object'` and no
`$`-properties, so they fall through every operator check and match every
record. -/

/-- A non-object filter literal (`typeof value !== 'object'` and not
`undefined`): boolean, number, or string. -/
inductive PrimVal where
  | pBool (b : Bool)
  | pNum (q : ℚ)
  | pStr (s : String)
deriving DecidableEq, Repr

def PrimVal.toValue : PrimVal → Value
  | .pBool b => .vBool b
  | .pNum q => .vNum q
  | .pStr s => .vStr s

/-- One filter-map entry value. -/
inductive FilterVal where
  | undef
  | prim (p : PrimVal)
  | arrLit (elems : List Scalar)
  | opObj (fields : List (String × Value))
deriving DecidableEq, Repr

/-- Property read on an operator object as used by the `!== undefined`
guards: an absent key and an explicitly-`undefined` key both fail the guard. -/
def opGet (ops : List (String × Value)) (k : String) : Option Value :=
  match ops.lookup k with
  | some .vUndef => none
  | x => x

/-- `array.includes(itemValue)` where the array holds scalars.  A non-array
operand of `$in`/`$nin` would throw in the source and is modelled as an empty
membership. -/
def jsIncludes (v : Value) (x : Value) : Bool :=
  match v with
  | .vArr l => l.any (fun s => s.toValue == x)
  | _ => false

/-- The operator chain of `applyFilters`, in source order:
`$eq, $ne, $gt, $gte, $lt, $lte, $in, $nin`; the first operator present
decides, and an object with none of them matches everything. -/
def evalOps (ops : List (String × Value)) (itemValue : Value) : Bool :=
  match opGet ops "$eq" with
  | some w => itemValue == w
  | none =>
  match opGet ops "$ne" with
  | some w => itemValue != w
  | none =>
  match opGet ops "$gt" with
  | some w => jsGt itemValue w
  | none =>
  match opGet ops "$gte" with
  | some w => jsGe itemValue w
  | none =>
  match opGet ops "$lt" with
  | some w => jsLt itemValue w
  | none =>
  match opGet ops "$lte" with
  | some w => jsLe itemValue w
  | none =>
  match opGet ops "$in" with
  | some w => jsIncludes w itemValue
  | none =>
  match opGet ops "$nin" with
  | some w => !jsIncludes w itemValue
  | none => true

/-- Match of one filter entry against one record. -/
def matchValue (item : RecordV) (key : String) (value : FilterVal) : Bool :=
  match value with
  | .undef => true
  | .prim p => getField item key == p.toValue
  | .arrLit _ => evalOps [] (getField item key)
  | .opObj fields => evalOps fields (getField item key)

/-- `DataStore.applyFilters`: every entry must match (`Object.entries(filter)
.every(...)`). -/
def applyFilters (items : List RecordV) (filter : List (String × FilterVal)) :
    List RecordV :=
  items.filter (fun item => filter.all (fun kv => matchValue item kv.1 kv.2))

/-! ### Sorting (`DataStore.applySorting`, lines 474-484) -/

inductive SortOrder where
  | asc
  | desc
deriving DecidableEq, Repr

/-- The comparator of `applySorting`: `0` when the key values are strictly
equal, else `1` if `aValue > bValue` and `-1` otherwise, negated for
descending order. -/
def sortCmp (sortBy : String) (ord : SortOrder) (a b : RecordV) : Int :=
  let aValue := getField a sortBy
  let bValue := getField b sortBy
  if aValue == bValue then 0
  else
    let comparison : Int := if jsGt aValue bValue then 1 else -1
    match ord with
    | .asc => comparison
    | .desc => -comparison

/-- `items.sort(comparator)`: modelled as a stable merge sort (JavaScript's
`Array.prototype.sort` is required to be stable). -/
def applySorting (items : List RecordV) (sortBy : String) (ord : SortOrder) :
    List RecordV :=
  items.mergeSort (fun a b => sortCmp sortBy ord a b ≤ 0)

/-! ### Query (`DataStore.query`, lines 262-304), default response format -/

structure QueryOptions where
  page? : Option ℕ := none
  limit? : Option ℕ := none
  sortBy? : Option String := none
  sortOrder? : Option SortOrder := none
  filter? : Option (List (String × FilterVal)) := none

/-- `options.page || 1` (`0` is falsy). -/
def pageOf (o : QueryOptions) : ℕ :=
  match o.page? with
  | some p => if p = 0 then 1 else p
  | none => 1

/-- `options.limit || 20` (`0` is falsy). -/
def limitOf (o : QueryOptions) : ℕ :=
  match o.limit? with
  | some l => if l = 0 then 20 else l
  | none => 20

/-- `options.sortOrder || 'asc'`. -/
def sortOrderOf (o : QueryOptions) : SortOrder :=
  (o.sortOrder?).getD .asc

structure Pagination where
  page : ℕ
  limit : ℕ
  total : ℕ
  totalPages : ℕ
deriving DecidableEq, Repr

structure QueryResult where
  data : List RecordV
  pagination : Pagination
deriving DecidableEq, Repr

/-- The filter stage of `query`: applied only when `options.filter` is set. -/
def filterStage (items : List RecordV) (o : QueryOptions) : List RecordV :=
  match o.filter? with
  | some f => applyFilters items f
  | none => items

/-- The sort stage of `query`: applied only when `options.sortBy` is a
non-empty string (the empty string is falsy). -/
def sortStage (items : List RecordV) (o : QueryOptions) : List RecordV :=
  match o.sortBy? with
  | some s => if s = "" then items else applySorting items s (sortOrderOf o)
  | none => items

/-- `DataStore.query` on the snapshot of the store's values, default response
format: filter, then sort, then paginate with
`totalPages = Math.ceil(total / limit)`, `startIndex = (page - 1) * limit`,
`items.slice(startIndex, startIndex + limit)`. -/
def queryModel (items0 : List RecordV) (o : QueryOptions) : QueryResult :=
  let items := filterStage items0 o
  let items := sortStage items o
  let page := pageOf o
  let limit := limitOf o
  let total := items.length
  let totalPages := (total + limit - 1) / limit
  let startIndex := (page - 1) * limit
  let pagedItems := (items.drop startIndex).take limit
  ⟨pagedItems, ⟨page, limit, total, totalPages⟩⟩

/-- `DataStore.count` with a filter argument. -/
def countModel (items0 : List RecordV) (filter : List (String × FilterVal)) :
    ℕ :=
  (applyFilters items0 filter).length

theorem nat_ceilDiv_eq_ceil (t l : ℕ) (hl : 0 < l) :
    ((t + l - 1) / l : ℕ) = ⌈(t : ℚ) / (l : ℚ)⌉₊ := by
  have hl' : (0 : ℚ) < (l : ℚ) := by exact_mod_cast hl
  rcases Nat.eq_zero_or_pos t with rfl | ht
  · have h1 : (0 + l - 1) / l = 0 := Nat.div_eq_of_lt (by omega)
    rw [h1]
    symm
    rw [Nat.ceil_eq_zero]
    simp
  · have hmod := Nat.div_add_mod (t + l - 1) l
    have hr : (t + l - 1) % l < l := Nat.mod_lt _ hl
    have hq1 : 1 ≤ (t + l - 1) / l := by
      rcases Nat.eq_zero_or_pos ((t + l - 1) / l) with h0 | h
      · rw [h0] at hmod; omega
      · exact h
    have hm : l * ((t + l - 1) / l) = ((t + l - 1) / l) * l := mul_comm _ _
    have hub : t ≤ ((t + l - 1) / l) * l := by omega
    have hlb : ((t + l - 1) / l) * l < t + l := by omega
    refine le_antisymm ?_ ?_
    · have hlt : ((((t + l - 1) / l) - 1 : ℕ) : ℚ) < (t : ℚ) / (l : ℚ) := by
        rw [lt_div_iff₀ hl']
        have hnat : (((t + l - 1) / l) - 1) * l < t := by
          have := Nat.sub_mul ((t + l - 1) / l) 1 l
          omega
        calc ((((t + l - 1) / l) - 1 : ℕ) : ℚ) * (l : ℚ)
            = (((((t + l - 1) / l) - 1) * l : ℕ) : ℚ) := by push_cast; ring
          _ < (t : ℚ) := by exact_mod_cast hnat
      have := Nat.lt_ceil.mpr hlt
      omega
    · rw [Nat.ceil_le, div_le_iff₀ hl']
      calc ((t : ℕ) : ℚ) ≤ ((((t + l - 1) / l) * l : ℕ) : ℚ) := by
            exact_mod_cast hub
        _ = (((t + l - 1) / l : ℕ) : ℚ) * (l : ℚ) := by push_cast; ring

/-- C3.  `query` is the composition filter → sort → paginate, in that fixed
order, with `totalPages = ceil(total / limit)` and
`start = (page - 1) * limit` (page defaulting to 1 and limit to 20), and an
out-of-range page yields an empty data slice rather than an error. -/
theorem query_pipeline (items0 : List RecordV) (o : QueryOptions) :
    (queryModel items0 o).data =
      ((sortStage (filterStage items0 o) o).drop ((pageOf o - 1) * limitOf o)).take
        (limitOf o)
    ∧ (queryModel items0 o).pagination =
        ⟨pageOf o, limitOf o, (sortStage (filterStage items0 o) o).length,
          ((sortStage (filterStage items0 o) o).length + limitOf o - 1) / limitOf o⟩
    ∧ (queryModel items0 o).pagination.totalPages =
        ⌈((sortStage (filterStage items0 o) o).length : ℚ) / (limitOf o : ℚ)⌉₊
    ∧ (o.page? = none → pageOf o = 1)
    ∧ (o.limit? = none → limitOf o = 20)
    ∧ ((sortStage (filterStage items0 o) o).length ≤ (pageOf o - 1) * limitOf o →
        (queryModel items0 o).data = []) := by
  have hl : 0 < limitOf o := by
    unfold limitOf
    cases h : o.limit? with
    | none => simp
    | some l =>
      by_cases h0 : l = 0
      · simp [h0]
      · simp [h0]
        omega
  refine ⟨rfl, rfl, ?_, ?_, ?_, ?_⟩
  · exact nat_ceilDiv_eq_ceil _ _ hl
  · intro h; simp [pageOf, h]
  · intro h; simp [limitOf, h]
  · intro h
    show ((sortStage (filterStage items0 o) o).drop
      ((pageOf o - 1) * limitOf o)).take (limitOf o) = []
    rw [List.drop_eq_nil_of_le h, List.take_nil]

/-- Witness for C3 at a concrete input: two records, page 5 of limit 2 is out
of range, so the data slice is empty. -/
theorem query_pipeline_witness :
    (queryModel [[("id", Value.vStr "a")], [("id", Value.vStr "b")]]
      { page? := some 5, limit? := some 2 }).data = [] := by
  have h := query_pipeline [[("id", Value.vStr "a")], [("id", Value.vStr "b")]]
    { page? := some 5, limit? := some 2 }
  exact h.2.2.2.2.2 (by decide)

/-! ### Operator-object semantics (claims C4 and C10) -/

/-- The fixed evaluation order of the operator chain in `applyFilters`. -/
def opOrder : List String :=
  ["$eq", "$ne", "$gt", "$gte", "$lt", "$lte", "$in", "$nin"]

/-- Specification-side reading of the operator chain: the first operator of
`opOrder` present in the object. -/
def firstKnownOp (ops : List (String × Value)) : Option (String × Value) :=
  (opOrder.filterMap (fun k => (opGet ops k).map (fun w => (k, w)))).head?

/-- Specification-side semantics of a single operator. -/
def evalOneOp (k : String) (w : Value) (itemValue : Value) : Bool :=
  if k = "$eq" then itemValue == w
  else if k = "$ne" then itemValue != w
  else if k = "$gt" then jsGt itemValue w
  else if k = "$gte" then jsGe itemValue w
  else if k = "$lt" then jsLt itemValue w
  else if k = "$lte" then jsLe itemValue w
  else if k = "$in" then jsIncludes w itemValue
  else if k = "$nin" then !jsIncludes w itemValue
  else true

/-- C10.  An operator object is decided solely by the first operator present
in the fixed order `$eq, $ne, $gt, $gte, $lt, $lte, $in, $nin`; further
operator keys are ignored rather than conjoined.  In particular
`{price: {$gt: 10, $lt: 5}}` matches exactly the records with `price > 10`. -/
theorem first_operator_wins (ops : List (String × Value)) (v : Value) :
    (evalOps ops v =
      match firstKnownOp ops with
      | some (k, w) => evalOneOp k w v
      | none => true)
    ∧ ∀ (r : RecordV),
        matchValue r "price" (.opObj [("$gt", .vNum 10), ("$lt", .vNum 5)]) =
          jsGt (getField r "price") (.vNum 10) := by
  constructor
  · unfold evalOps firstKnownOp opOrder
    cases h1 : opGet ops "$eq" with
    | some w => simp [h1, evalOneOp]
    | none =>
      cases h2 : opGet ops "$ne" with
      | some w => simp [h1, h2, evalOneOp]
      | none =>
        cases h3 : opGet ops "$gt" with
        | some w => simp [h1, h2, h3, evalOneOp]
        | none =>
          cases h4 : opGet ops "$gte" with
          | some w => simp [h1, h2, h3, h4, evalOneOp]
          | none =>
            cases h5 : opGet ops "$lt" with
            | some w => simp [h1, h2, h3, h4, h5, evalOneOp]
            | none =>
              cases h6 : opGet ops "$lte" with
              | some w => simp [h1, h2, h3, h4, h5, h6, evalOneOp]
              | none =>
                cases h7 : opGet ops "$in" with
                | some w => simp [h1, h2, h3, h4, h5, h6, h7, evalOneOp]
                | none =>
                  cases h8 : opGet ops "$nin" with
                  | some w => simp [h1, h2, h3, h4, h5, h6, h7, h8, evalOneOp]
                  | none => simp [h1, h2, h3, h4, h5, h6, h7, h8]
  · intro r
    rfl

theorem lookup_eq_none_of_forall_ne {β : Type} (l : List (String × β))
    (k : String) (h : ∀ p ∈ l, p.1 ≠ k) : l.lookup k = none := by
  induction l with
  | nil => rfl
  | cons hd tl ih =>
    obtain ⟨k', v'⟩ := hd
    have hhd : k' ≠ k := h (k', v') (by simp)
    have hbeq : (k == k') = false := by
      simp
      exact fun h' => hhd h'.symm
    rw [List.lookup_cons, hbeq]
    exact ih (fun p hp => h p (by simp [hp]))

/-- C4 counterexample.  The claim's first clause fails for an entry whose
value is `undefined`: the source skips the entry (`if (value === undefined)
return true`) and keeps the record, although `record[field] === undefined` is
false for a record whose field is present. -/
theorem filter_undefined_entry_cex :
    applyFilters [[("category", Value.vStr "books")]]
        [("category", FilterVal.undef)]
      = [[("category", Value.vStr "books")]]
    ∧ (getField [("category", Value.vStr "books")] "category"
        == Value.vUndef) = false := by
  exact ⟨rfl, rfl⟩

/-- C4 (amended).  Filter entries AND together; an entry whose value is
`undefined` matches every record; an entry whose value is any other non-object
value matches a record iff `record[field] === value`; operator-object entries
are evaluated with the supported keys `$eq, $ne, $gt, $gte, $lt, $lte,
$in, $nin`; and an operator object containing only unknown operator keys
matches every record. -/
theorem filter_semantics :
    (∀ (items : List RecordV) (f : List (String × FilterVal)),
      applyFilters items f =
        items.filter (fun it => f.all (fun kv => matchValue it kv.1 kv.2)))
    ∧ (∀ (it : RecordV) (k : String), matchValue it k .undef = true)
    ∧ (∀ (it : RecordV) (k : String) (p : PrimVal),
        matchValue it k (.prim p) = (getField it k == p.toValue))
    ∧ (∀ (it : RecordV) (k : String) (w : Value), w ≠ .vUndef →
        matchValue it k (.opObj [("$eq", w)]) = (getField it k == w))
    ∧ (∀ (it : RecordV) (k : String) (w : Value), w ≠ .vUndef →
        matchValue it k (.opObj [("$ne", w)]) = (getField it k != w))
    ∧ (∀ (it : RecordV) (k : String) (w : Value), w ≠ .vUndef →
        matchValue it k (.opObj [("$gt", w)]) = jsGt (getField it k) w)
    ∧ (∀ (it : RecordV) (k : String) (w : Value), w ≠ .vUndef →
        matchValue it k (.opObj [("$gte", w)]) = jsGe (getField it k) w)
    ∧ (∀ (it : RecordV) (k : String) (w : Value), w ≠ .vUndef →
        matchValue it k (.opObj [("$lt", w)]) = jsLt (getField it k) w)
    ∧ (∀ (it : RecordV) (k : String) (w : Value), w ≠ .vUndef →
        matchValue it k (.opObj [("$lte", w)]) = jsLe (getField it k) w)
    ∧ (∀ (it : RecordV) (k : String) (l : List Scalar),
        matchValue it k (.opObj [("$in", .vArr l)]) =
          jsIncludes (.vArr l) (getField it k))
    ∧ (∀ (it : RecordV) (k : String) (l : List Scalar),
        matchValue it k (.opObj [("$nin", .vArr l)]) =
          !jsIncludes (.vArr l) (getField it k))
    ∧ (∀ (it : RecordV) (k : String) (fields : List (String × Value)),
        (∀ p ∈ fields, p.1 ∉ opOrder) →
        matchValue it k (.opObj fields) = true) := by
  refine ⟨fun _ _ => rfl, fun _ _ => rfl, fun _ _ _ => rfl, ?_, ?_, ?_, ?_,
    ?_, ?_, fun _ _ _ => rfl, fun _ _ _ => rfl, ?_⟩
  · intro it k w hw
    cases w <;> first | exact absurd rfl hw | rfl
  · intro it k w hw
    cases w <;> first | exact absurd rfl hw | rfl
  · intro it k w hw
    cases w <;> first | exact absurd rfl hw | rfl
  · intro it k w hw
    cases w <;> first | exact absurd rfl hw | rfl
  · intro it k w hw
    cases w <;> first | exact absurd rfl hw | rfl
  · intro it k w hw
    cases w <;> first | exact absurd rfl hw | rfl
  · intro it k fields hf
    have hget : ∀ kk, kk ∈ opOrder → opGet fields kk = none := by
      intro kk hkk
      unfold opGet
      rw [lookup_eq_none_of_forall_ne fields kk
        (fun p hp hpk => hf p hp (hpk ▸ hkk))]
    show evalOps fields (getField it k) = true
    unfold evalOps
    rw [hget "$eq" (by decide), hget "$ne" (by decide), hget "$gt" (by decide),
      hget "$gte" (by decide), hget "$lt" (by decide), hget "$lte" (by decide),
      hget "$in" (by decide), hget "$nin" (by decide)]

/-- Witness for C4 (amended) at concrete inputs: a `$gt` singleton object
matches `price = 30` against `$gt: 25`, and an object with only the unknown
key `$exists` matches a record. -/
theorem filter_semantics_witness :
    matchValue [("price", Value.vNum 30)] "price"
        (.opObj [("$gt", Value.vNum 25)]) = true
    ∧ matchValue [("price", Value.vNum 30)] "price"
        (.opObj [("$exists", Value.vBool true)]) = true := by
  constructor
  · rw [(filter_semantics).2.2.2.2.2.1 [("price", Value.vNum 30)] "price"
      (Value.vNum 25) (by decide)]
    decide
  · exact (filter_semantics).2.2.2.2.2.2.2.2.2.2.2
      [("price", Value.vNum 30)] "price" [("$exists", Value.vBool true)]
      (by decide)

/-! ### The store map and CRUD (`DataStore`, src/unnamed/part_000)

`this.data` is a JavaScript `Map`; `Map.set` keeps the position of an
existing key and appends new keys, `Map.get` looks a key up with
SameValueZero equality (structural equality on the modelled `Value`s). -/

/-- `Map.set` on an association list. -/
def alSet {α β : Type} [BEq α] : List (α × β) → α → β → List (α × β)
  | [], k, v => [(k, v)]
  | (k', v') :: rest, k, v =>
    if k' == k then (k, v) :: rest else (k', v') :: alSet rest k v

theorem alSet_lookup_self {α β : Type} [BEq α] [LawfulBEq α]
    (m : List (α × β)) (k : α) (v : β) : (alSet m k v).lookup k = some v := by
  induction m with
  | nil =>
    show List.lookup k [(k, v)] = some v
    rw [List.lookup_cons]
    simp
  | cons hd tl ih =>
    obtain ⟨k', v'⟩ := hd
    show List.lookup k (if k' == k then (k, v) :: tl
      else (k', v') :: alSet tl k v) = some v
    by_cases hk : k' = k
    · rw [if_pos (by simp [hk]), List.lookup_cons]
      simp
    · rw [if_neg (by simp [hk]), List.lookup_cons]
      have h2 : (k == k') = false := by
        simp
        exact fun h' => hk h'.symm
      rw [h2]
      exact ih

theorem alSet_lookup_ne {α β : Type} [BEq α] [LawfulBEq α]
    (m : List (α × β)) (k k0 : α) (v : β) (h : k0 ≠ k) :
    (alSet m k v).lookup k0 = m.lookup k0 := by
  induction m with
  | nil =>
    show List.lookup k0 [(k, v)] = none
    rw [List.lookup_cons]
    have h2 : (k0 == k) = false := by simp [h]
    rw [h2]
    rfl
  | cons hd tl ih =>
    obtain ⟨k', v'⟩ := hd
    show List.lookup k0 (if k' == k then (k, v) :: tl
      else (k', v') :: alSet tl k v) = List.lookup k0 ((k', v') :: tl)
    by_cases hk : k' = k
    · subst hk
      rw [if_pos (by simp), List.lookup_cons, List.lookup_cons]
      have h2 : (k0 == k') = false := by simp [h]
      rw [h2]
    · rw [if_neg (by simp [hk]), List.lookup_cons, List.lookup_cons]
      cases hx : k0 == k'
      · exact ih
      · rfl

/-- Every value of `alSet m k v` is `v` or a value of `m`. -/
theorem alSet_values_subset {α β : Type} [BEq α] (m : List (α × β)) (k : α)
    (v : β) : ∀ p ∈ alSet m k v, p.2 = v ∨ p ∈ m := by
  induction m with
  | nil => intro p hp; simp [alSet] at hp; simp [hp]
  | cons hd tl ih =>
    intro p hp
    obtain ⟨k', v'⟩ := hd
    unfold alSet at hp
    by_cases hk : (k' == k) = true
    · rw [if_pos hk] at hp
      rcases List.mem_cons.mp hp with h | h
      · left; rw [h]
      · right; exact List.mem_cons_of_mem _ h
    · rw [if_neg hk] at hp
      rcases List.mem_cons.mp hp with h | h
      · right; rw [h]; exact List.mem_cons_self _ _
      · rcases ih p h with h' | h'
        · left; exact h'
        · right; exact List.mem_cons_of_mem _ h'

/-- The store's record map: JavaScript `Map` keys are arbitrary values. -/
abbrev StoreData := List (Value × RecordV)

/-- `DataStore.findById` (post-initialization): `this.data.get(id) || null`,
`none` standing for the `null` not-found result. -/
def findById (data : StoreData) (id : String) : Option RecordV :=
  data.lookup (.vStr id)

/-- `DataStore.insert` (post-initialization): stamps `id` (if the input's
`id` is falsy), `createdAt` (if falsy) and always a fresh `updatedAt`, then
stores under the resulting id.  `now` is the wall clock
(`new Date().toISOString()`), `freshId` the result of `this.generateId()`. -/
def insertModel (data : StoreData) (item : RecordV) (now freshId : String) :
    RecordV × StoreData :=
  let idVal := if (getField item "id").truthy then getField item "id"
               else .vStr freshId
  let createdVal := if (getField item "createdAt").truthy
               then getField item "createdAt" else .vStr now
  let newItem := spreadR item
    [("id", idVal), ("createdAt", createdVal), ("updatedAt", .vStr now)]
  (newItem, alSet data idVal newItem)

/-- `DataStore.update` (post-initialization): shallow-merge of the partial
onto the existing record, with `id`, `createdAt` forced back and a fresh
`updatedAt`; `none` when the id does not exist. -/
def updateModel (data : StoreData) (id : String) (updates : RecordV)
    (now : String) : Option (RecordV × StoreData) :=
  match data.lookup (.vStr id) with
  | none => none
  | some existing =>
    let updated := spreadR (spreadR existing updates)
      [("id", .vStr id), ("createdAt", getField existing "createdAt"),
       ("updatedAt", .vStr now)]
    some (updated, alSet data (.vStr id) updated)

/-- `DataStore.replace` (post-initialization): the incoming record replaces
the stored fields, with `id` and `createdAt` forced from the existing record
and a fresh `updatedAt`; `none` when the id does not exist. -/
def replaceModel (data : StoreData) (id : String) (item : RecordV)
    (now : String) : Option (RecordV × StoreData) :=
  match data.lookup (.vStr id) with
  | none => none
  | some existing =>
    let replaced := spreadR item
      [("id", .vStr id), ("createdAt", getField existing "createdAt"),
       ("updatedAt", .vStr now)]
    some (replaced, alSet data (.vStr id) replaced)

/-- `DataStore.delete` (post-initialization). -/
def deleteModel (data : StoreData) (id : String) : Bool × StoreData :=
  ((data.lookup (.vStr id)).isSome,
    data.filter (fun kv => kv.1 != .vStr id))

theorem lookup_overlay_update (idv created : Value) (now : String)
    (k : String)
    (hk : k ≠ "id" ∧ k ≠ "createdAt" ∧ k ≠ "updatedAt") :
    (([("id", idv), ("createdAt", created),
       ("updatedAt", Value.vStr now)] : RecordV).lookup k) = none := by
  obtain ⟨h1, h2, h3⟩ := hk
  have b1 : (k == "id") = false := by simp [h1]
  have b2 : (k == "createdAt") = false := by simp [h2]
  have b3 : (k == "updatedAt") = false := by simp [h3]
  simp [List.lookup_cons, b1, b2, b3]

/-- C5.  After `update(id, partial)` or `replace(id, full)` on an existing
id, the stored and returned record keeps the pre-existing record's `id` and
`createdAt` (caller-supplied overrides in the payload are discarded) and gets
a fresh `updatedAt`. -/
theorem update_replace_protect_fields (data : StoreData) (id now : String)
    (payload : RecordV) (existing : RecordV)
    (hex : data.lookup (Value.vStr id) = some existing)
    (hid : getField existing "id" = Value.vStr id) :
    (∃ u d', updateModel data id payload now = some (u, d')
      ∧ getField u "id" = getField existing "id"
      ∧ getField u "createdAt" = getField existing "createdAt"
      ∧ getField u "updatedAt" = Value.vStr now
      ∧ d'.lookup (Value.vStr id) = some u)
    ∧ (∃ u d', replaceModel data id payload now = some (u, d')
      ∧ getField u "id" = getField existing "id"
      ∧ getField u "createdAt" = getField existing "createdAt"
      ∧ getField u "updatedAt" = Value.vStr now
      ∧ d'.lookup (Value.vStr id) = some u) := by
  constructor
  · refine ⟨spreadR (spreadR existing payload)
      [("id", Value.vStr id), ("createdAt", getField existing "createdAt"),
       ("updatedAt", Value.vStr now)],
      alSet data (Value.vStr id) (spreadR (spreadR existing payload)
        [("id", Value.vStr id), ("createdAt", getField existing "createdAt"),
         ("updatedAt", Value.vStr now)]), ?_, ?_, ?_, ?_, ?_⟩
    · unfold updateModel
      rw [hex]
    · rw [hid]
      rfl
    · rfl
    · rfl
    · exact alSet_lookup_self data (Value.vStr id) _
  · refine ⟨spreadR payload
      [("id", Value.vStr id), ("createdAt", getField existing "createdAt"),
       ("updatedAt", Value.vStr now)],
      alSet data (Value.vStr id) (spreadR payload
        [("id", Value.vStr id), ("createdAt", getField existing "createdAt"),
         ("updatedAt", Value.vStr now)]), ?_, ?_, ?_, ?_, ?_⟩
    · unfold replaceModel
      rw [hex]
    · rw [hid]
      rfl
    · rfl
    · rfl
    · exact alSet_lookup_self data (Value.vStr id) _

/-- Witness for C5 at a concrete input: a payload that tries to override
`id` and `createdAt` is defeated. -/
theorem update_replace_protect_fields_witness :
    ([((Value.vStr "r1"),
        [("id", Value.vStr "r1"), ("createdAt", Value.vStr "c0")])] :
      StoreData).lookup (Value.vStr "r1") =
        some [("id", Value.vStr "r1"), ("createdAt", Value.vStr "c0")]
    ∧ getField [("id", Value.vStr "r1"), ("createdAt", Value.vStr "c0")] "id"
        = Value.vStr "r1"
    ∧ (∃ u d',
        updateModel [((Value.vStr "r1"),
          [("id", Value.vStr "r1"), ("createdAt", Value.vStr "c0")])] "r1"
          [("id", Value.vStr "HACK"), ("createdAt", Value.vStr "HACK")] "t1"
          = some (u, d')
        ∧ getField u "id" =
            getField [("id", Value.vStr "r1"),
              ("createdAt", Value.vStr "c0")] "id"
        ∧ getField u "createdAt" =
            getField [("id", Value.vStr "r1"),
              ("createdAt", Value.vStr "c0")] "createdAt"
        ∧ getField u "updatedAt" = Value.vStr "t1"
        ∧ d'.lookup (Value.vStr "r1") = some u) := by
  refine ⟨by decide, by decide, ?_⟩
  exact (update_replace_protect_fields _ "r1" "t1"
    [("id", Value.vStr "HACK"), ("createdAt", Value.vStr "HACK")]
    [("id", Value.vStr "r1"), ("createdAt", Value.vStr "c0")]
    (by decide) (by decide)).1

/-- C6 counterexample.  `insert` always stamps `updatedAt` with the insert
time, even when the input supplies one (`updatedAt: now` is unconditional in
the source, unlike `id` and `createdAt`), so "stamped only if absent" fails
for `updatedAt`. -/
theorem insert_overwrites_updatedAt_cex :
    getField (insertModel []
        [("id", Value.vStr "a"), ("createdAt", Value.vStr "c"),
         ("updatedAt", Value.vStr "u")] "T" "g").1 "updatedAt"
      = Value.vStr "T"
    ∧ Value.vStr "T" ≠ Value.vStr "u" := by
  exact ⟨rfl, by decide⟩

/-- C6 (amended).  `insert` assigns `id` only if the input's `id` is
absent/falsy, stamps `createdAt` only if absent/falsy, always stamps
`updatedAt` with the insert time, stores the record, and a subsequent
`findById` on the returned id returns exactly the stored record, which agrees
with the inserted one on every other field. -/
theorem insert_semantics (data : StoreData) (item : RecordV)
    (now freshId : String) :
    ((getField item "id").truthy = true →
      getField (insertModel data item now freshId).1 "id" = getField item "id")
    ∧ ((getField item "id").truthy = false →
      getField (insertModel data item now freshId).1 "id" = Value.vStr freshId)
    ∧ ((getField item "createdAt").truthy = true →
      getField (insertModel data item now freshId).1 "createdAt" =
        getField item "createdAt")
    ∧ ((getField item "createdAt").truthy = false →
      getField (insertModel data item now freshId).1 "createdAt" =
        Value.vStr now)
    ∧ getField (insertModel data item now freshId).1 "updatedAt" =
        Value.vStr now
    ∧ (∀ f, f ≠ "id" → f ≠ "createdAt" → f ≠ "updatedAt" →
        getField (insertModel data item now freshId).1 f = getField item f)
    ∧ (∀ s, getField (insertModel data item now freshId).1 "id" =
          Value.vStr s →
        findById (insertModel data item now freshId).2 s =
          some (insertModel data item now freshId).1) := by
  refine ⟨?_, ?_, ?_, ?_, ?_, ?_, ?_⟩
  · intro h
    simp only [insertModel, h, if_true]
    rfl
  · intro h
    simp only [insertModel, h, Bool.false_eq_true, if_false]
    rfl
  · intro h
    simp only [insertModel, h, if_true]
    rfl
  · intro h
    simp only [insertModel, h, Bool.false_eq_true, if_false]
    rfl
  · rfl
  · intro f h1 h2 h3
    show getField (spreadR item _) f = getField item f
    rw [getField_spreadR_of_not_mem _ _ f (lookup_overlay_update _ _ _ f
      ⟨h1, h2, h3⟩)]
  · intro s hs
    show ((insertModel data item now freshId).2).lookup (Value.vStr s) =
      some (insertModel data item now freshId).1
    have hidv : (if (getField item "id").truthy then getField item "id"
        else Value.vStr freshId) = Value.vStr s := hs
    simp only [insertModel, hidv]
    exact alSet_lookup_self data (Value.vStr s) _

/-- Witness for C6 (amended) at a concrete input: an inserted record without
an id gets the generated one and is found again by `findById`. -/
theorem insert_semantics_witness :
    ((getField [("name", Value.vStr "n")] "id").truthy = false
      ∧ getField (insertModel [] [("name", Value.vStr "n")] "T" "g1").1 "id" =
          Value.vStr "g1")
    ∧ (getField (insertModel [] [("name", Value.vStr "n")] "T" "g1").1 "id" =
          Value.vStr "g1"
      ∧ findById (insertModel [] [("name", Value.vStr "n")] "T" "g1").2 "g1" =
          some (insertModel [] [("name", Value.vStr "n")] "T" "g1").1) := by
  have h := insert_semantics [] [("name", Value.vStr "n")] "T" "g1"
  refine ⟨⟨by decide, h.2.1 (by decide)⟩, ⟨h.2.1 (by decide), ?_⟩⟩
  exact h.2.2.2.2.2.2 "g1" (h.2.1 (by decide))

/-- C7 counterexample.  Two updates within the same millisecond produce the
same ISO timestamp, so `updatedAt` is not *strictly* greater after
`update(id, {})`: updating at the very time already stored leaves the field
equal. -/
theorem update_same_millisecond_cex :
    (updateModel
        [((Value.vStr "r1"),
          [("id", Value.vStr "r1"),
           ("updatedAt", Value.vStr "2024-01-01T00:00:00.000Z")])]
        "r1" [] "2024-01-01T00:00:00.000Z").map
        (fun p => getField p.1 "updatedAt")
      = some (Value.vStr "2024-01-01T00:00:00.000Z")
    ∧ jsLt (Value.vStr "2024-01-01T00:00:00.000Z")
        (Value.vStr "2024-01-01T00:00:00.000Z") = false := by
  exact ⟨rfl, by decide⟩

/-- C7 (amended).  `update(id, {})` leaves every field except `updatedAt`
unchanged; `updatedAt` is set to the update-time timestamp, hence it is
strictly greater than the previous value (string comparison) exactly when the
clock string has advanced since the previous mutation. -/
theorem update_empty_partial (data : StoreData) (id now : String)
    (existing : RecordV) (prev : String)
    (hex : data.lookup (Value.vStr id) = some existing)
    (hid : getField existing "id" = Value.vStr id)
    (hprev : getField existing "updatedAt" = Value.vStr prev)
    (hadv : prev < now) :
    ∃ u d', updateModel data id [] now = some (u, d')
      ∧ (∀ f, f ≠ "updatedAt" → getField u f = getField existing f)
      ∧ getField u "updatedAt" = Value.vStr now
      ∧ jsLt (getField existing "updatedAt") (getField u "updatedAt")
          = true := by
  refine ⟨spreadR (spreadR existing [])
    [("id", Value.vStr id), ("createdAt", getField existing "createdAt"),
     ("updatedAt", Value.vStr now)],
    alSet data (Value.vStr id) (spreadR (spreadR existing [])
      [("id", Value.vStr id), ("createdAt", getField existing "createdAt"),
       ("updatedAt", Value.vStr now)]), ?_, ?_, ?_, ?_⟩
  · unfold updateModel
    rw [hex]
  · intro f hf
    by_cases h1 : f = "id"
    · subst h1
      rw [hid]
      rfl
    · by_cases h2 : f = "createdAt"
      · subst h2
        rfl
      · rw [getField_spreadR_of_not_mem _ _ f (lookup_overlay_update _ _ _ f
          ⟨h1, h2, hf⟩)]
        rfl
  · rfl
  · rw [hprev]
    show jsLt (Value.vStr prev) (Value.vStr now) = true
    unfold jsLt
    exact decide_eq_true (String.lt_iff_toList_lt.mp hadv)

/-- Witness for C7 (amended) at a concrete input. -/
theorem update_empty_partial_witness :
    ∃ u d', updateModel
        [((Value.vStr "r1"),
          [("id", Value.vStr "r1"), ("updatedAt", Value.vStr "t1")])]
        "r1" [] "t2" = some (u, d')
      ∧ (∀ f, f ≠ "updatedAt" →
          getField u f =
            getField [("id", Value.vStr "r1"),
              ("updatedAt", Value.vStr "t1")] f)
      ∧ getField u "updatedAt" = Value.vStr "t2"
      ∧ jsLt (getField [("id", Value.vStr "r1"),
            ("updatedAt", Value.vStr "t1")] "updatedAt")
          (getField u "updatedAt") = true := by
  exact update_empty_partial _ "r1" "t2"
    [("id", Value.vStr "r1"), ("updatedAt", Value.vStr "t1")] "t1"
    (by decide) (by decide) (by decide)
    (String.lt_iff_toList_lt.mpr (by decide))

/-! ### Seed generation (`generateWithFaker` / `generateSingleValue`,
src/src/defineCollection.ts lines 1255-1356, and
`DataStore.generateSeedData`, src/unnamed/part_000 lines 157-195)

The collection schemas exercised here are flat object schemas of primitive
fields (the claims do not involve nested object/array/join generation).
Faker's random draws are modelled by consuming an explicit entropy stream:
each draw takes the head of the stream and the concrete value produced for a
draw is an injective tag of the entropy (`"uuid-" ++ e`, …). -/

/-- The primitive schema node kinds needed by the claims
(`uuid`, `string`, `number`, `boolean`, `date`). -/
inductive FieldKind where
  | fUuid
  | fStr
  | fNum
  | fBool
  | fDate
deriving DecidableEq, Repr

structure FieldSpec where
  kind : FieldKind
  optional : Bool
deriving DecidableEq, Repr

/-- An object schema: field name to field spec (`_shape`). -/
abbrev SchemaF := List (String × FieldSpec)

/-- Entropy stream for `Math.random` / faker draws. -/
abbrev Rng := List ℕ

def rngNext (r : Rng) : ℕ × Rng := (r.headD 0, r.tail)

/-- One faker draw for a primitive kind at entropy `e`
(`faker.string.uuid()`, `faker.lorem.word()`,
`faker.number.int({min:1,max:1000})`, `faker.datatype.boolean()`,
`faker.date.recent().toISOString()`). -/
def fakerValue (k : FieldKind) (e : ℕ) : Value :=
  match k with
  | .fUuid => .vStr ("uuid-" ++ toString e)
  | .fStr => .vStr ("word-" ++ toString e)
  | .fNum => .vNum (1 + (e % 1000 : ℕ))
  | .fBool => .vBool (e % 2 = 0)
  | .fDate => .vStr ("date-" ++ toString e)

/-- The primitive part of `generateSingleValue`: a `uuid`-typed field whose
name has a non-empty FK value pool draws a random element of the pool
(`availableIds[randomIndex]`); every other case draws a fresh faker value. -/
def genPrimValue (fs : FieldSpec) (fieldName : String)
    (pools : List (String × List Value)) (rng : Rng) : Value × Rng :=
  if fs.kind = .fUuid then
    match pools.lookup fieldName with
    | some availableIds =>
      if availableIds.length > 0 then
        let (r, rng') := rngNext rng
        (availableIds.getD (r % availableIds.length) .vNull, rng')
      else
        let (r, rng') := rngNext rng
        (fakerValue .fUuid r, rng')
    | none =>
      let (r, rng') := rngNext rng
      (fakerValue .fUuid r, rng')
  else
    let (r, rng') := rngNext rng
    (fakerValue fs.kind r, rng')

/-- `generateSingleValue` on a primitive field: an optional field is skipped
with probability 25% (`schema._meta.optional && Math.random() < 0.25`,
modelled as one draw tested mod 4). -/
def generateSingleValueM (fs : FieldSpec) (fieldName : String)
    (pools : List (String × List Value)) (rng : Rng) : Value × Rng :=
  if fs.optional then
    let (r, rng') := rngNext rng
    if r % 4 = 0 then (.vUndef, rng')
    else genPrimValue fs fieldName pools rng'
  else genPrimValue fs fieldName pools rng

/-- `generateSingleValue` on an object schema: generate each field, including
it only when the value is not `undefined`. -/
def generateObjectM : SchemaF → List (String × List Value) → Rng →
    RecordV × Rng
  | [], _, rng => ([], rng)
  | (k, fs) :: rest, pools, rng =>
    let (v, rng') := generateSingleValueM fs k pools rng
    let (restRec, rng'') := generateObjectM rest pools rng'
    if v = .vUndef then (restRec, rng'')
    else ((k, v) :: restRec, rng'')

/-- The per-item stamping of `generateSeedData` (and of the AI path):
`{...item, id: item.id || this.generateId(), createdAt: item.createdAt ||
now, updatedAt: now}`.  `generateId()` is a fresh draw
(`Date.now() + random suffix`). -/
def stampSeedItem (item : RecordV) (now : String) (rng : Rng) :
    RecordV × Rng :=
  let (idv, rng') :=
    if (getField item "id").truthy then (getField item "id", rng)
    else
      let (r, rng₁) := rngNext rng
      (Value.vStr ("gen-" ++ toString r), rng₁)
  let cv := if (getField item "createdAt").truthy then
      getField item "createdAt" else Value.vStr now
  (spreadR item [("id", idv), ("createdAt", cv), ("updatedAt", .vStr now)],
    rng')

/-- The Faker branch of `generateSeedData`:
`Array.from({length: seedCount}, () => stamp(generateWithFaker(schema, 1,
pools)))`. -/
def fakerSeedItems (schema : SchemaF) (pools : List (String × List Value))
    (now : String) : ℕ → Rng → List RecordV × Rng
  | 0, _rng => ([], _rng)
  | n + 1, rng =>
    let (item, rng₁) := generateObjectM schema pools rng
    let (stamped, rng₂) := stampSeedItem item now rng₁
    let (rest, rng₃) := fakerSeedItems schema pools now n rng₂
    (stamped :: rest, rng₃)

/-- Stamping of an AI-generated batch (`generateSeedDataWithAI`'s final
`dataArray.map`). -/
def stampAll : List RecordV → String → Rng → List RecordV × Rng
  | [], _, rng => ([], rng)
  | it :: rest, now, rng =>
    let (st, rng₁) := stampSeedItem it now rng
    let (sts, rng₂) := stampAll rest now rng₁
    (st :: sts, rng₂)

/-- `config.generateMode` (default `faker`). -/
inductive GenMode where
  | faker
  | ai
  | auto
deriving DecidableEq, Repr

/-- `DataStore.generateSeedData`: in `ai`/`auto` mode try the AI batch first
(`aiOutcome` is what `generateSeedDataWithAI` would produce: an unwrapped raw
batch, or a raised error).  A non-empty AI batch is stamped and returned; an
empty one falls through to Faker; an AI error is rethrown in strict `ai` mode
and absorbed (Faker fallback) in `auto` mode.  `faker` mode goes straight to
the Faker branch, which never fails. -/
def generateSeedDataM (mode : GenMode)
    (aiOutcome : Except String (List RecordV)) (schema : SchemaF)
    (seedCount : ℕ) (pools : List (String × List Value)) (now : String)
    (rng : Rng) : Except String (List RecordV × Rng) :=
  if mode = .ai ∨ mode = .auto then
    match aiOutcome with
    | .ok aiRaw =>
      if aiRaw.length > 0 then .ok (stampAll aiRaw now rng)
      else .ok (fakerSeedItems schema pools now seedCount rng)
    | .error e =>
      if mode = .ai then .error e
      else .ok (fakerSeedItems schema pools now seedCount rng)
  else .ok (fakerSeedItems schema pools now seedCount rng)

/-! ### Persistence absorption (`loadFromPersistence`, `persist`,
`persistCreate`/`persistUpdate`/`persistDelete`,
src/unnamed/part_000 lines 489-648)

Every persistence call is wrapped in `try { ... } catch { console.warn/error }`:
a failing load is treated as "no persisted data", a failing save is logged
and skipped.  The backend outcome is an explicit input. -/

def loadFromPersistenceM (outcome : Except String (Option (List RecordV))) :
    Option (List RecordV) :=
  match outcome with
  | .ok v => v
  | .error _ => none

def persistOpM (saveOutcome : Except String Unit) : Except String Unit :=
  match saveOutcome with
  | .ok _ => .ok ()
  | .error _ => .ok ()

/-! ### Coordinated initialization (`DataStore.initializeAllCollections`,
src/unnamed/part_000 lines 37-111)

The registry and the seed order come from the (externally computed)
`getCollectionRegistry` / `getCollectionSeedOrder`; they are inputs here.
`availableIds` is the transient FK-pool source accumulated over the pass. -/

structure StoreState where
  data : StoreData
  schema : SchemaF
  seedCount : ℕ
  initialized : Bool
deriving Repr

inductive RelType where
  | belongsTo
  | hasMany
  | hasOne
deriving DecidableEq, Repr

structure RelationConfig where
  rtype : RelType
  collection : String
  foreignKey : String
deriving DecidableEq, Repr

/-- The registry metadata consulted by the pass (`metadata.config.relations`). -/
structure CollMeta where
  relations : List (String × RelationConfig)
deriving DecidableEq, Repr

structure InitEnv where
  registry : List (String × CollMeta)
  seedOrder : List String
  persisted : List (String × List RecordV)
  mode : GenMode
  aiOutcomes : List (String × Except String (List RecordV))
  now : String

def aiOf (env : InitEnv) (name : String) : Except String (List RecordV) :=
  (env.aiOutcomes.lookup name).getD (.error "ai unavailable")

/-- The iteration of the FK-pool construction loop (lines 84-97): a
`belongsTo` relation whose target has a non-empty recorded id list maps its
foreign-key field name to those ids (`fkValuePools.set`). -/
def buildFkPoolsGo (avail : List (String × List Value)) :
    List (String × RelationConfig) → List (String × List Value) →
    List (String × List Value)
  | [], pools => pools
  | rel :: rest, pools =>
    buildFkPoolsGo avail rest
      (if rel.2.rtype = .belongsTo then
        match avail.lookup rel.2.collection with
        | some relatedIds =>
          if relatedIds.length > 0 then
            alSet pools rel.2.foreignKey relatedIds
          else pools
        | none => pools
      else pools)

/-- FK pool construction for one collection, starting from an empty map. -/
def buildFkPools (relations : List (String × RelationConfig))
    (avail : List (String × List Value)) : List (String × List Value) :=
  buildFkPoolsGo avail relations []

/-- `items.forEach(item => store.data.set(item.id, item))`. -/
def loadRecords (data : StoreData) (items : List RecordV) : StoreData :=
  items.foldl (fun d item => alSet d (getField item "id") item) data

/-- `store.initializeWithFKIntegrity(fkValuePools)` for a store that is not
yet initialized: generate, fill the map, mark initialized (the subsequent
`persist()` is absorbed, see `persistOpM`). -/
def seedFreshStore (env : InitEnv) (metadata : CollMeta) (st : StoreState)
    (name : String) (avail : List (String × List Value)) (rng : Rng) :
    Except String (StoreState × Rng) :=
  match generateSeedDataM env.mode (aiOf env name) st.schema st.seedCount
      (buildFkPools metadata.relations avail) env.now rng with
  | .error e => .error e
  | .ok (items, rng') =>
    .ok ({ st with
      data := loadRecords st.data items
      initialized := true }, rng')

/-- The per-collection state threaded through the
`for (const collectionName of seedOrder)` loop. -/
structure LoopSt where
  stores : List (String × StoreState)
  avail : List (String × List Value)
  rng : Rng

/-- One iteration of the loop of `initializeAllCollections`: skip an
unregistered name, a missing store or an already-initialized store; load from
persistence when it yields a non-empty batch, otherwise seed fresh with FK
pools; record the resulting id list in `availableIds`; a generation error
aborts. -/
def initStep (env : InitEnv) (name : String) (s : LoopSt) :
    LoopSt × Except String Unit :=
  match env.registry.lookup name with
  | none => (s, .ok ())
  | some metadata =>
    match s.stores.lookup name with
    | none => (s, .ok ())
    | some st =>
      if st.initialized then (s, .ok ())
      else
        match (env.persisted.lookup name).filter (fun l => l.length > 0) with
        | some persistedData =>
          ({ stores := alSet s.stores name { st with
               data := loadRecords st.data persistedData
               initialized := true },
             avail := alSet s.avail name
               ((loadRecords st.data persistedData).map (fun kv => kv.1)),
             rng := s.rng }, .ok ())
        | none =>
          match seedFreshStore env metadata st name s.avail s.rng with
          | .error e => (s, .error e)
          | .ok (st', rng') =>
            ({ stores := alSet s.stores name st',
               avail := alSet s.avail name (st'.data.map (fun kv => kv.1)),
               rng := rng' }, .ok ())

/-- The loop itself: iterations in seed order, an error aborting the pass
(the exception propagates out of the `for` loop). -/
def initLoop (env : InitEnv) (names : List String) (s : LoopSt) :
    LoopSt × Except String Unit :=
  match names with
  | [] => (s, .ok ())
  | name :: rest =>
    match initStep env name s with
    | (s', .ok _) => initLoop env rest s'
    | (s', .error e) => (s', .error e)

/-- The process-wide state: the static `isInitializingAll` flag and the
per-collection stores. -/
structure Sys where
  flag : Bool
  stores : List (String × StoreState)

/-- `DataStore.initializeAllCollections`: a second caller that observes the
flag set returns immediately; otherwise the flag is set, the loop runs, and
the `finally` clears the flag whether the loop succeeded or failed. -/
def initializeAllCollections (env : InitEnv) (rng : Rng) (sys : Sys) :
    Sys × Except String Unit :=
  if sys.flag then (sys, .ok ())
  else
    match initLoop env env.seedOrder ⟨sys.stores, [], rng⟩ with
    | (s', res) => ({ flag := false, stores := s'.stores }, res)

/-! ### Basic facts about generation and loading -/

theorem stampAll_length (items : List RecordV) (now : String) (rng : Rng) :
    (stampAll items now rng).1.length = items.length := by
  induction items generalizing rng with
  | nil => rfl
  | cons it rest ih =>
    unfold stampAll
    simp [ih]

theorem fakerSeedItems_length (schema : SchemaF)
    (pools : List (String × List Value)) (now : String) (n : ℕ) (rng : Rng) :
    (fakerSeedItems schema pools now n rng).1.length = n := by
  induction n generalizing rng with
  | zero => rfl
  | succ m ih =>
    unfold fakerSeedItems
    simp [ih]

theorem alSet_ne_nil {α β : Type} [BEq α] (m : List (α × β)) (k : α) (v : β) :
    alSet m k v ≠ [] := by
  cases m with
  | nil => simp [alSet]
  | cons hd tl =>
    obtain ⟨k', v'⟩ := hd
    unfold alSet
    by_cases hk : (k' == k) = true
    · rw [if_pos hk]; simp
    · rw [if_neg hk]; simp

theorem loadRecords_ne_nil (data : StoreData) (items : List RecordV)
    (h : data ≠ [] ∨ items ≠ []) : loadRecords data items ≠ [] := by
  induction items generalizing data with
  | nil =>
    rcases h with h | h
    · exact h
    · exact absurd rfl h
  | cons it rest ih =>
    show loadRecords (alSet data (getField it "id") it) rest ≠ []
    exact ih _ (Or.inl (alSet_ne_nil _ _ _))

theorem loadRecords_mem (data : StoreData) (items : List RecordV) :
    ∀ p ∈ loadRecords data items, p.2 ∈ items ∨ p ∈ data := by
  induction items generalizing data with
  | nil => intro p hp; exact Or.inr hp
  | cons it rest ih =>
    intro p hp
    have hp' : p.2 ∈ rest ∨ p ∈ alSet data (getField it "id") it := ih _ p hp
    rcases hp' with h | h
    · exact Or.inl (List.mem_cons_of_mem _ h)
    · rcases alSet_values_subset data (getField it "id") it p h with h' | h'
      · exact Or.inl (h' ▸ List.mem_cons_self _ _)
      · exact Or.inr h'

theorem getD_mem {α : Type} (l : List α) (r : ℕ) (d : α) (h : l ≠ []) :
    l.getD (r % l.length) d ∈ l := by
  have hlen : 0 < l.length := List.length_pos.mpr h
  have hlt : r % l.length < l.length := Nat.mod_lt _ hlen
  rw [List.getD_eq_getElem l d hlt]
  exact List.getElem_mem hlt

/-- In `faker` mode, `generateSeedData` is exactly the Faker branch. -/
theorem generateSeedDataM_faker (aiOutcome : Except String (List RecordV))
    (schema : SchemaF) (seedCount : ℕ) (pools : List (String × List Value))
    (now : String) (rng : Rng) :
    generateSeedDataM .faker aiOutcome schema seedCount pools now rng =
      .ok (fakerSeedItems schema pools now seedCount rng) := rfl

/-- Outside strict `ai` mode, `generateSeedData` never raises. -/
theorem generateSeedDataM_ok (mode : GenMode)
    (aiOutcome : Except String (List RecordV)) (schema : SchemaF)
    (seedCount : ℕ) (pools : List (String × List Value)) (now : String)
    (rng : Rng) (h : mode ≠ .ai) :
    ∃ out, generateSeedDataM mode aiOutcome schema seedCount pools now rng =
      .ok out := by
  cases mode with
  | ai => exact absurd rfl h
  | faker => exact ⟨_, rfl⟩
  | auto =>
    cases aiOutcome with
    | error e => exact ⟨_, rfl⟩
    | ok aiRaw =>
      by_cases hl : aiRaw.length > 0
      · exact ⟨stampAll aiRaw now rng, by simp [generateSeedDataM, hl]⟩
      · exact ⟨fakerSeedItems schema pools now seedCount rng,
          by simp [generateSeedDataM, hl]⟩

/-- A successful generation for a positive seed count yields a non-empty
batch. -/
theorem generateSeedDataM_ne_nil (mode : GenMode)
    (aiOutcome : Except String (List RecordV)) (schema : SchemaF)
    (seedCount : ℕ) (pools : List (String × List Value)) (now : String)
    (rng : Rng) (items : List RecordV) (rng' : Rng)
    (hsc : 1 ≤ seedCount)
    (h : generateSeedDataM mode aiOutcome schema seedCount pools now rng =
      .ok (items, rng')) : items ≠ [] := by
  have hlen : items.length ≥ 1 ∨ items.length = seedCount := by
    unfold generateSeedDataM at h
    split at h
    · split at h
      next aiRaw =>
        split at h
        next hl =>
          have h2 := Except.ok.inj h
          have h3 := congrArg (fun p => p.1.length) h2
          have hstamp := stampAll_length aiRaw now rng
          simp only at h3
          omega
        next hl =>
          have h2 := Except.ok.inj h
          have h3 := congrArg (fun p => p.1.length) h2
          have hfk := fakerSeedItems_length schema pools now seedCount rng
          simp only at h3
          omega
      next e =>
        split at h
        · exact absurd h (by simp)
        · have h2 := Except.ok.inj h
          have h3 := congrArg (fun p => p.1.length) h2
          have hfk := fakerSeedItems_length schema pools now seedCount rng
          simp only at h3
          omega
    · have h2 := Except.ok.inj h
      have h3 := congrArg (fun p => p.1.length) h2
      have hfk := fakerSeedItems_length schema pools now seedCount rng
      simp only at h3
      omega
  intro hnil
  rw [hnil] at hlen
  simp at hlen
  omega

theorem seedFreshStore_shape (env : InitEnv) (metadata : CollMeta)
    (st st' : StoreState) (name : String)
    (avail : List (String × List Value)) (rng rng' : Rng)
    (hsf : seedFreshStore env metadata st name avail rng = .ok (st', rng')) :
    ∃ items, generateSeedDataM env.mode (aiOf env name) st.schema st.seedCount
        (buildFkPools metadata.relations avail) env.now rng =
        .ok (items, rng')
      ∧ st' = { st with
          data := loadRecords st.data items
          initialized := true } := by
  unfold seedFreshStore at hsf
  split at hsf
  · exact absurd hsf (by simp)
  next items rngX hg =>
    have h2 := Except.ok.inj hsf
    injection h2 with ha hb
    exact ⟨items, by rw [hg, hb], ha.symm⟩

theorem seedFreshStore_ok (env : InitEnv) (metadata : CollMeta)
    (st : StoreState) (name : String) (avail : List (String × List Value))
    (rng : Rng) (h : env.mode ≠ .ai) :
    ∃ st' rng', seedFreshStore env metadata st name avail rng =
      .ok (st', rng') := by
  obtain ⟨⟨items, rng'⟩, hg⟩ := generateSeedDataM_ok env.mode (aiOf env name)
    st.schema st.seedCount (buildFkPools metadata.relations avail) env.now
    rng h
  refine ⟨{ st with
    data := loadRecords st.data items
    initialized := true }, rng', ?_⟩
  unfold seedFreshStore
  rw [hg]

/-! ### Step characterization of the initialization loop -/

theorem initLoop_nil (env : InitEnv) (s : LoopSt) :
    initLoop env [] s = (s, .ok ()) := rfl

theorem initLoop_cons_ok (env : InitEnv) (name : String) (rest : List String)
    (s s₁ : LoopSt) (h : initStep env name s = (s₁, .ok ())) :
    initLoop env (name :: rest) s = initLoop env rest s₁ := by
  conv_lhs => unfold initLoop
  rw [h]

theorem initLoop_cons_error (env : InitEnv) (name : String)
    (rest : List String) (s s₁ : LoopSt) (e : String)
    (h : initStep env name s = (s₁, .error e)) :
    initLoop env (name :: rest) s = (s₁, .error e) := by
  conv_lhs => unfold initLoop
  rw [h]

theorem initStep_unreg (env : InitEnv) (name : String) (s : LoopSt)
    (h : env.registry.lookup name = none) :
    initStep env name s = (s, .ok ()) := by
  unfold initStep
  rw [h]

theorem initStep_nostore (env : InitEnv) (name : String) (s : LoopSt)
    (metadata : CollMeta)
    (h1 : env.registry.lookup name = some metadata)
    (h2 : s.stores.lookup name = none) :
    initStep env name s = (s, .ok ()) := by
  unfold initStep
  rw [h1, h2]

theorem initStep_initialized (env : InitEnv) (name : String) (s : LoopSt)
    (metadata : CollMeta) (st : StoreState)
    (h1 : env.registry.lookup name = some metadata)
    (h2 : s.stores.lookup name = some st)
    (h3 : st.initialized = true) :
    initStep env name s = (s, .ok ()) := by
  unfold initStep
  rw [h1, h2]
  simp only [h3, if_true]

theorem initStep_load (env : InitEnv) (name : String) (s : LoopSt)
    (metadata : CollMeta) (st : StoreState) (persistedData : List RecordV)
    (h1 : env.registry.lookup name = some metadata)
    (h2 : s.stores.lookup name = some st)
    (h3 : st.initialized = false)
    (h4 : (env.persisted.lookup name).filter (fun l => l.length > 0) =
      some persistedData) :
    initStep env name s =
      ({ stores := alSet s.stores name { st with
           data := loadRecords st.data persistedData
           initialized := true },
         avail := alSet s.avail name
           ((loadRecords st.data persistedData).map (fun kv => kv.1)),
         rng := s.rng }, .ok ()) := by
  unfold initStep
  rw [h1, h2]
  simp only [h3, Bool.false_eq_true, if_false]
  rw [h4]

theorem initStep_seed (env : InitEnv) (name : String) (s : LoopSt)
    (metadata : CollMeta) (st st' : StoreState) (rng' : Rng)
    (h1 : env.registry.lookup name = some metadata)
    (h2 : s.stores.lookup name = some st)
    (h3 : st.initialized = false)
    (h4 : (env.persisted.lookup name).filter (fun l => l.length > 0) = none)
    (h5 : seedFreshStore env metadata st name s.avail s.rng =
      .ok (st', rng')) :
    initStep env name s =
      ({ stores := alSet s.stores name st',
         avail := alSet s.avail name (st'.data.map (fun kv => kv.1)),
         rng := rng' }, .ok ()) := by
  unfold initStep
  rw [h1, h2]
  simp only [h3, Bool.false_eq_true, if_false]
  rw [h4, h5]

theorem initStep_seed_error (env : InitEnv) (name : String) (s : LoopSt)
    (metadata : CollMeta) (st : StoreState) (e : String)
    (h1 : env.registry.lookup name = some metadata)
    (h2 : s.stores.lookup name = some st)
    (h3 : st.initialized = false)
    (h4 : (env.persisted.lookup name).filter (fun l => l.length > 0) = none)
    (h5 : seedFreshStore env metadata st name s.avail s.rng = .error e) :
    initStep env name s = (s, .error e) := by
  unfold initStep
  rw [h1, h2]
  simp only [h3, Bool.false_eq_true, if_false]
  rw [h4, h5]


/-- Exhaustive shape analysis of one iteration: it is a no-op, an aborting
error, or it initializes exactly the store at `name` (which was not yet
initialized) and records its id list. -/
theorem initStep_cases (env : InitEnv) (name : String) (s : LoopSt) :
    initStep env name s = (s, .ok ())
    ∨ (∃ e, initStep env name s = (s, .error e))
    ∨ (∃ st st' rng',
        s.stores.lookup name = some st ∧ st.initialized = false
        ∧ st'.initialized = true
        ∧ initStep env name s =
          ({ stores := alSet s.stores name st',
             avail := alSet s.avail name (st'.data.map (fun kv => kv.1)),
             rng := rng' }, .ok ())) := by
  cases hreg : env.registry.lookup name with
  | none => exact Or.inl (initStep_unreg env name s hreg)
  | some metadata =>
    cases hst : s.stores.lookup name with
    | none => exact Or.inl (initStep_nostore env name s metadata hreg hst)
    | some st =>
      cases hinit : st.initialized with
      | true =>
        exact Or.inl (initStep_initialized env name s metadata st hreg hst
          hinit)
      | false =>
        cases hp : (env.persisted.lookup name).filter
            (fun l => l.length > 0) with
        | some persistedData =>
          refine Or.inr (Or.inr ⟨st, ({ st with
            data := loadRecords st.data persistedData
            initialized := true } : StoreState), s.rng, rfl, hinit, rfl, ?_⟩)
          exact initStep_load env name s metadata st persistedData hreg hst
            hinit hp
        | none =>
          cases hsf : seedFreshStore env metadata st name s.avail s.rng with
          | error e =>
            exact Or.inr (Or.inl ⟨e, initStep_seed_error env name s metadata
              st e hreg hst hinit hp hsf⟩)
          | ok p =>
            obtain ⟨st', rng'⟩ := p
            obtain ⟨items, _, hshape⟩ := seedFreshStore_shape env metadata st
              st' name s.avail s.rng rng' hsf
            refine Or.inr (Or.inr ⟨st, st', rng', rfl, hinit, ?_, ?_⟩)
            · rw [hshape]
            · exact initStep_seed env name s metadata st st' rng' hreg hst
                hinit hp hsf

/-- Outside strict `ai` mode no iteration can fail. -/
theorem initStep_ok_of_not_ai (env : InitEnv) (name : String) (s : LoopSt)
    (hmode : env.mode ≠ .ai) : (initStep env name s).2 = .ok () := by
  cases hreg : env.registry.lookup name with
  | none => rw [initStep_unreg env name s hreg]
  | some metadata =>
    cases hst : s.stores.lookup name with
    | none => rw [initStep_nostore env name s metadata hreg hst]
    | some st =>
      cases hinit : st.initialized with
      | true =>
        rw [initStep_initialized env name s metadata st hreg hst hinit]
      | false =>
        cases hp : (env.persisted.lookup name).filter
            (fun l => l.length > 0) with
        | some persistedData =>
          rw [initStep_load env name s metadata st persistedData hreg hst
            hinit hp]
        | none =>
          obtain ⟨st', rng', hsf⟩ := seedFreshStore_ok env metadata st name
            s.avail s.rng hmode
          rw [initStep_seed env name s metadata st st' rng' hreg hst hinit hp
            hsf]

/-! ### Invariants of the initialization loop -/

/-- `availableIds` records exactly the id sets of initialized stores. -/
def availOK (stores : List (String × StoreState))
    (avail : List (String × List Value)) : Prop :=
  ∀ n ids, avail.lookup n = some ids →
    ∃ st, stores.lookup n = some st ∧ st.initialized = true
      ∧ st.data.map (fun kv => kv.1) = ids

theorem availOK_nil (stores : List (String × StoreState)) :
    availOK stores [] := by
  intro n ids h
  simp [List.lookup] at h

theorem availOK_set (stores : List (String × StoreState))
    (avail : List (String × List Value)) (name : String) (st' : StoreState)
    (h : availOK stores avail) (hinit : st'.initialized = true) :
    availOK (alSet stores name st')
      (alSet avail name (st'.data.map (fun kv => kv.1))) := by
  intro n ids hn
  by_cases hname : n = name
  · subst hname
    rw [alSet_lookup_self] at hn
    refine ⟨st', ?_, hinit, Option.some.inj hn⟩
    rw [alSet_lookup_self]
  · rw [alSet_lookup_ne _ _ _ _ hname] at hn
    obtain ⟨st, hst, hi, hk⟩ := h n ids hn
    refine ⟨st, ?_, hi, hk⟩
    rw [alSet_lookup_ne _ _ _ _ hname]
    exact hst

/-- Over the whole loop: `availableIds` stays correct, recorded id lists are
never overwritten, and initialized stores are never touched again. -/
theorem initLoop_invariant (env : InitEnv) :
    ∀ (names : List String) (s : LoopSt),
      availOK s.stores s.avail →
      availOK (initLoop env names s).1.stores (initLoop env names s).1.avail
      ∧ (∀ n ids, s.avail.lookup n = some ids →
          ((initLoop env names s).1.avail).lookup n = some ids)
      ∧ (∀ n st, s.stores.lookup n = some st → st.initialized = true →
          ((initLoop env names s).1.stores).lookup n = some st) := by
  intro names
  induction names with
  | nil =>
    intro s h
    exact ⟨h, fun n ids hn => hn, fun n st hst _ => hst⟩
  | cons name rest ih =>
    intro s h
    rcases initStep_cases env name s with hstep | ⟨e, hstep⟩ |
      ⟨st, st', rng', hst, hinit, hinit', hstep⟩
    · rw [initLoop_cons_ok env name rest s s hstep]
      exact ih s h
    · rw [initLoop_cons_error env name rest s s e hstep]
      exact ⟨h, fun n ids hn => hn, fun n stN hstN _ => hstN⟩
    · rw [initLoop_cons_ok env name rest s _ hstep]
      have hmono : ∀ n ids, s.avail.lookup n = some ids →
          (alSet s.avail name (st'.data.map (fun kv => kv.1))).lookup n =
            some ids := by
        intro n ids hn
        by_cases hname : n = name
        · subst hname
          obtain ⟨stN, hstN, hiN, _⟩ := h n ids hn
          rw [hst] at hstN
          rw [Option.some.inj hstN] at hinit
          rw [hiN] at hinit
          exact absurd hinit (by simp)
        · rw [alSet_lookup_ne _ _ _ _ hname]
          exact hn
      have hfroz : ∀ n stN, s.stores.lookup n = some stN →
          stN.initialized = true →
          (alSet s.stores name st').lookup n = some stN := by
        intro n stN hstN hiN
        by_cases hname : n = name
        · subst hname
          rw [hst] at hstN
          rw [Option.some.inj hstN] at hinit
          rw [hiN] at hinit
          exact absurd hinit (by simp)
        · rw [alSet_lookup_ne _ _ _ _ hname]
          exact hstN
      have hok := ih ⟨alSet s.stores name st',
        alSet s.avail name (st'.data.map (fun kv => kv.1)), rng'⟩
        (availOK_set s.stores s.avail name st' h hinit')
      refine ⟨hok.1, ?_, ?_⟩
      · intro n ids hn
        exact hok.2.1 n ids (hmono n ids hn)
      · intro n stN hstN hiN
        exact hok.2.2 n stN (hfroz n stN hstN hiN) hiN

/-- Stores whose names never occur in the processed list are untouched. -/
theorem initLoop_lookup_of_not_mem (env : InitEnv) :
    ∀ (names : List String) (s : LoopSt) (n : String),
      n ∉ names →
      ((initLoop env names s).1.stores).lookup n = s.stores.lookup n := by
  intro names
  induction names with
  | nil => intro s n _; rfl
  | cons name rest ih =>
    intro s n hn
    have hn1 : n ≠ name := fun he => hn (he ▸ List.mem_cons_self _ _)
    have hn2 : n ∉ rest := fun he => hn (List.mem_cons_of_mem _ he)
    rcases initStep_cases env name s with hstep | ⟨e, hstep⟩ |
      ⟨st, st', rng', hst, hinit, hinit', hstep⟩
    · rw [initLoop_cons_ok env name rest s s hstep]
      exact ih s n hn2
    · rw [initLoop_cons_error env name rest s s e hstep]
    · rw [initLoop_cons_ok env name rest s _ hstep]
      rw [ih _ n hn2]
      exact alSet_lookup_ne _ _ _ _ hn1

/-- Splitting the loop at an intermediate point. -/
theorem initLoop_append (env : InitEnv) :
    ∀ (l₁ l₂ : List String) (s : LoopSt),
      initLoop env (l₁ ++ l₂) s =
        (match initLoop env l₁ s with
         | (s', Except.ok _) => initLoop env l₂ s'
         | (s', Except.error e) => (s', Except.error e)) := by
  intro l₁
  induction l₁ with
  | nil => intro l₂ s; rfl
  | cons name rest ih =>
    intro l₂ s
    show initLoop env (name :: (rest ++ l₂)) s = _
    cases hstep : initStep env name s with
    | mk s₁ res =>
      cases res with
      | ok u =>
        rw [initLoop_cons_ok env name (rest ++ l₂) s s₁ hstep,
          initLoop_cons_ok env name rest s s₁ hstep]
        exact ih l₂ s₁
      | error e =>
        rw [initLoop_cons_error env name (rest ++ l₂) s s₁ e hstep,
          initLoop_cons_error env name rest s s₁ e hstep]

/-- Outside strict `ai` mode the whole pass succeeds. -/
theorem initLoop_ok (env : InitEnv) (hmode : env.mode ≠ .ai) :
    ∀ (names : List String) (s : LoopSt),
      (initLoop env names s).2 = .ok () := by
  intro names
  induction names with
  | nil => intro s; rfl
  | cons name rest ih =>
    intro s
    cases hstep : initStep env name s with
    | mk s₁ res =>
      have hres := initStep_ok_of_not_ai env name s hmode
      rw [hstep] at hres
      simp only at hres
      rw [hres] at hstep
      rw [initLoop_cons_ok env name rest s s₁ hstep]
      exact ih s₁

/-- C9.  A call to `initializeAllCollections` arriving while the process-wide
`isInitializingAll` flag is set returns immediately, performing no seeding and
mutating no store; and for the pass that actually runs (flag initially
clear), the flag is clear again on exit whether the pass succeeded or
failed. -/
theorem init_reentrancy :
    (∀ (env : InitEnv) (rng : Rng) (sys : Sys), sys.flag = true →
      initializeAllCollections env rng sys = (sys, .ok ()))
    ∧ (∀ (env : InitEnv) (rng : Rng) (sys : Sys), sys.flag = false →
      ((initializeAllCollections env rng sys).1).flag = false) := by
  constructor
  · intro env rng sys h
    unfold initializeAllCollections
    rw [if_pos h]
  · intro env rng sys h
    unfold initializeAllCollections
    rw [if_neg (by simp [h])]

/-- Witness for C9 at a concrete input: a flagged system is returned
unchanged, an unflagged one exits with the flag clear. -/
theorem init_reentrancy_witness :
    (({ flag := true,
        stores := [("users",
          ⟨[], [("id", ⟨.fUuid, false⟩)], 1, false⟩)] } : Sys).flag = true
      ∧ initializeAllCollections
          { registry := [("users", ⟨[]⟩)], seedOrder := ["users"],
            persisted := [], mode := .faker, aiOutcomes := [], now := "T" }
          [0, 1, 2, 3]
          { flag := true,
            stores := [("users", ⟨[], [("id", ⟨.fUuid, false⟩)], 1, false⟩)] }
        = ({ flag := true,
             stores := [("users",
               ⟨[], [("id", ⟨.fUuid, false⟩)], 1, false⟩)] }, .ok ()))
    ∧ ((initializeAllCollections
          { registry := [("users", ⟨[]⟩)], seedOrder := ["users"],
            persisted := [], mode := .faker, aiOutcomes := [], now := "T" }
          [0, 1, 2, 3]
          { flag := false,
            stores := [("users",
              ⟨[], [("id", ⟨.fUuid, false⟩)], 1, false⟩)] }).1).flag
        = false := by
  refine ⟨⟨rfl, ?_⟩, ?_⟩
  · exact init_reentrancy.1 _ _ _ rfl
  · exact init_reentrancy.2 _ _ _ rfl

/-- C8 counterexample.  In strict `generateMode: 'ai'`, a failure of the AI
value generator is rethrown (`if (generateMode === 'ai') throw error` in
`generateSeedData`) and propagates out of the initialization pass to the
caller — it is neither a NotFound nor a ConfigurationError. -/
theorem generation_failure_propagates_cex :
    (initializeAllCollections
      { registry := [("users", ⟨[]⟩)], seedOrder := ["users"],
        persisted := [], mode := .ai,
        aiOutcomes := [("users", .error "AI generation failed")], now := "T" }
      [0, 1, 2, 3]
      { flag := false,
        stores := [("users",
          ⟨[], [("id", ⟨.fUuid, false⟩), ("name", ⟨.fStr, false⟩)], 2,
            false⟩)] }).2
      = .error "AI generation failed" := by
  rfl

/-- C8 (amended).  Persistence load failures are absorbed as "no persisted
data" and save failures are absorbed silently; generator failures are
absorbed with the Faker fallback in every mode except strict `ai`; outside
strict `ai` mode an initialization pass never surfaces an error. -/
theorem failures_absorbed :
    (∀ (mode : GenMode) (aiOutcome : Except String (List RecordV))
        (schema : SchemaF) (seedCount : ℕ)
        (pools : List (String × List Value)) (now : String) (rng : Rng),
      mode ≠ .ai →
      ∃ out, generateSeedDataM mode aiOutcome schema seedCount pools now rng
        = .ok out)
    ∧ (∀ e, loadFromPersistenceM (.error e) = none)
    ∧ (∀ o, persistOpM o = .ok ())
    ∧ (∀ (env : InitEnv) (rng : Rng) (sys : Sys), env.mode ≠ .ai →
        (initializeAllCollections env rng sys).2 = .ok ()) := by
  refine ⟨?_, fun e => rfl, ?_, ?_⟩
  · intro mode aiOutcome schema seedCount pools now rng h
    exact generateSeedDataM_ok mode aiOutcome schema seedCount pools now rng h
  · intro o
    cases o <;> rfl
  · intro env rng sys h
    unfold initializeAllCollections
    by_cases hf : sys.flag = true
    · rw [if_pos hf]
    · rw [if_neg hf]
      have hloop := initLoop_ok env h env.seedOrder ⟨sys.stores, [], rng⟩
      cases hres : initLoop env env.seedOrder ⟨sys.stores, [], rng⟩ with
      | mk s' res =>
        rw [hres] at hloop
        simp only at hloop
        simp only [hloop]

/-- Witness for C8 (amended) at concrete inputs: an AI failure in `auto` mode
falls back to Faker, a failing load yields no data, a failing save is
swallowed, and a full pass in `auto` mode with a broken AI succeeds. -/
theorem failures_absorbed_witness :
    (GenMode.auto ≠ GenMode.ai
      ∧ ∃ out, generateSeedDataM .auto (.error "boom")
          [("id", ⟨.fUuid, false⟩)] 2 [] "T" [0, 1, 2, 3, 4, 5] = .ok out)
    ∧ loadFromPersistenceM (.error "disk failure") = none
    ∧ persistOpM (.error "save failed") = .ok ()
    ∧ (({ registry := [("users", ⟨[]⟩)], seedOrder := ["users"],
          persisted := [], mode := .auto,
          aiOutcomes := [("users", .error "boom")],
          now := "T" } : InitEnv).mode ≠ .ai
        ∧ (initializeAllCollections
            { registry := [("users", ⟨[]⟩)], seedOrder := ["users"],
              persisted := [], mode := .auto,
              aiOutcomes := [("users", .error "boom")], now := "T" }
            [0, 1, 2, 3]
            { flag := false,
              stores := [("users",
                ⟨[], [("id", ⟨.fUuid, false⟩)], 1, false⟩)] }).2 = .ok ()) := by
  refine ⟨⟨by decide, ?_⟩, ?_, ?_, by decide, ?_⟩
  · exact failures_absorbed.1 .auto (.error "boom")
      [("id", ⟨.fUuid, false⟩)] 2 [] "T" [0, 1, 2, 3, 4, 5] (by decide)
  · exact failures_absorbed.2.1 "disk failure"
  · exact failures_absorbed.2.2.1 (.error "save failed")
  · exact failures_absorbed.2.2.2 _ _ _ (by decide)

/-! ### FK pools and generated field values (claim C1) -/

theorem buildFkPoolsGo_lookup (avail : List (String × List Value))
    (ids : List Value) (hne : ids ≠ []) (rc : RelationConfig)
    (hbt : rc.rtype = .belongsTo)
    (hav : avail.lookup rc.collection = some ids) :
    ∀ (relations : List (String × RelationConfig))
      (pools : List (String × List Value)),
      (((∃ rn, (rn, rc) ∈ relations)
          ∧ (relations.map (fun p => p.2.foreignKey)).Nodup)
        ∨ (pools.lookup rc.foreignKey = some ids
            ∧ ∀ p ∈ relations, p.2.foreignKey ≠ rc.foreignKey)) →
      (buildFkPoolsGo avail relations pools).lookup rc.foreignKey =
        some ids := by
  intro relations
  induction relations with
  | nil =>
    intro pools h
    rcases h with ⟨⟨rn, hmem⟩, _⟩ | ⟨hlook, _⟩
    · exact absurd hmem (List.not_mem_nil _)
    · exact hlook
  | cons rel rest ih =>
    intro pools h
    show (buildFkPoolsGo avail rest
      (if rel.2.rtype = .belongsTo then
        match avail.lookup rel.2.collection with
        | some relatedIds =>
          if relatedIds.length > 0 then
            alSet pools rel.2.foreignKey relatedIds
          else pools
        | none => pools
      else pools)).lookup rc.foreignKey = some ids
    rcases h with ⟨⟨rn, hmem⟩, hnd⟩ | ⟨hlook, hall⟩
    · rcases List.mem_cons.mp hmem with heq | hmem'
      · subst heq
        have hpools' : (if ((rn, rc) : String × RelationConfig).2.rtype =
              RelType.belongsTo then
            match avail.lookup ((rn, rc) : String × RelationConfig).2.collection
              with
            | some relatedIds =>
              if relatedIds.length > 0 then
                alSet pools ((rn, rc) :
                  String × RelationConfig).2.foreignKey relatedIds
              else pools
            | none => pools
          else pools) = alSet pools rc.foreignKey ids := by
          show (if rc.rtype = RelType.belongsTo then
            match avail.lookup rc.collection with
            | some relatedIds =>
              if relatedIds.length > 0 then
                alSet pools rc.foreignKey relatedIds
              else pools
            | none => pools
          else pools) = alSet pools rc.foreignKey ids
          rw [if_pos hbt]
          simp only [hav]
          rw [if_pos (List.length_pos.mpr hne)]
        rw [hpools']
        apply ih
        right
        refine ⟨alSet_lookup_self pools rc.foreignKey ids, ?_⟩
        intro p hp hpk
        rw [List.map_cons] at hnd
        have hnotin := (List.nodup_cons.mp hnd).1
        exact hnotin (hpk ▸ List.mem_map_of_mem _ hp)
      · apply ih
        left
        refine ⟨⟨rn, hmem'⟩, ?_⟩
        rw [List.map_cons] at hnd
        exact (List.nodup_cons.mp hnd).2
    · have hfk : rel.2.foreignKey ≠ rc.foreignKey :=
        hall rel (List.mem_cons_self _ _)
      have hpres : (if rel.2.rtype = .belongsTo then
          match avail.lookup rel.2.collection with
          | some relatedIds =>
            if relatedIds.length > 0 then
              alSet pools rel.2.foreignKey relatedIds
            else pools
          | none => pools
        else pools).lookup rc.foreignKey = some ids := by
        by_cases hb : rel.2.rtype = .belongsTo
        · rw [if_pos hb]
          cases hx : avail.lookup rel.2.collection with
          | none =>
            simp only [hx]
            exact hlook
          | some relatedIds =>
            simp only [hx]
            by_cases hl : relatedIds.length > 0
            · rw [if_pos hl, alSet_lookup_ne _ _ _ _ (Ne.symm hfk)]
              exact hlook
            · rw [if_neg hl]
              exact hlook
        · rw [if_neg hb]
          exact hlook
      apply ih
      right
      refine ⟨hpres, ?_⟩
      intro p hp
      exact hall p (List.mem_cons_of_mem _ hp)

/-- Pool construction: a `belongsTo` relation whose target has a non-empty
recorded id list puts exactly those ids in the pool under its foreign-key
field (provided no other declared relation shares the foreign-key name). -/
theorem buildFkPools_lookup (relations : List (String × RelationConfig))
    (avail : List (String × List Value)) (rn : String) (rc : RelationConfig)
    (ids : List Value)
    (hmem : (rn, rc) ∈ relations) (hbt : rc.rtype = .belongsTo)
    (hnd : (relations.map (fun p => p.2.foreignKey)).Nodup)
    (hav : avail.lookup rc.collection = some ids) (hne : ids ≠ []) :
    (buildFkPools relations avail).lookup rc.foreignKey = some ids := by
  unfold buildFkPools
  exact buildFkPoolsGo_lookup avail ids hne rc hbt hav relations []
    (Or.inl ⟨⟨rn, hmem⟩, hnd⟩)

theorem generateObjectM_cons (k : String) (fs : FieldSpec) (rest : SchemaF)
    (pools : List (String × List Value)) (rng : Rng) :
    generateObjectM ((k, fs) :: rest) pools rng =
      (if (generateSingleValueM fs k pools rng).1 = Value.vUndef
       then generateObjectM rest pools (generateSingleValueM fs k pools rng).2
       else ((k, (generateSingleValueM fs k pools rng).1) ::
          (generateObjectM rest pools
            (generateSingleValueM fs k pools rng).2).1,
          (generateObjectM rest pools
            (generateSingleValueM fs k pools rng).2).2)) := rfl

theorem generateObjectM_keys :
    ∀ (schema : SchemaF) (pools : List (String × List Value)) (rng : Rng),
      ∀ p ∈ (generateObjectM schema pools rng).1,
        p.1 ∈ schema.map Prod.fst := by
  intro schema
  induction schema with
  | nil => intro pools rng p hp; exact absurd hp (List.not_mem_nil _)
  | cons hd rest ih =>
    obtain ⟨k, fs⟩ := hd
    intro pools rng p hp
    rw [generateObjectM_cons] at hp
    by_cases hv : (generateSingleValueM fs k pools rng).1 = Value.vUndef
    · rw [if_pos hv] at hp
      exact List.mem_cons_of_mem _ (ih pools _ p hp)
    · rw [if_neg hv] at hp
      rcases List.mem_cons.mp hp with heq | hmem
      · rw [heq]
        exact List.mem_cons_self _ _
      · exact List.mem_cons_of_mem _ (ih pools _ p hmem)

theorem generateSingleValueM_nonopt (fs : FieldSpec) (F : String)
    (pools : List (String × List Value)) (rng : Rng)
    (hopt : fs.optional = false) :
    generateSingleValueM fs F pools rng = genPrimValue fs F pools rng := by
  unfold generateSingleValueM
  simp only [hopt, Bool.false_eq_true, if_false]

theorem genPrimValue_pool (fs : FieldSpec) (F : String)
    (pools : List (String × List Value)) (rng : Rng) (ids : List Value)
    (hkind : fs.kind = .fUuid) (hpool : pools.lookup F = some ids)
    (hne : ids ≠ []) :
    (genPrimValue fs F pools rng).1 ∈ ids := by
  unfold genPrimValue
  rw [if_pos hkind]
  simp only [hpool]
  rw [if_pos (List.length_pos.mpr hne)]
  exact getD_mem ids _ _ hne

/-- The central generated-value fact: a non-optional `uuid` field whose name
has a non-empty FK pool is always drawn from the pool. -/
theorem generateObjectM_field :
    ∀ (schema : SchemaF) (rng : Rng) (pools : List (String × List Value))
      (F : String) (ids : List Value) (fs : FieldSpec),
      (schema.map Prod.fst).Nodup →
      schema.lookup F = some fs → fs.kind = .fUuid → fs.optional = false →
      pools.lookup F = some ids → ids ≠ [] →
      getField (generateObjectM schema pools rng).1 F ∈ ids := by
  intro schema
  induction schema with
  | nil =>
    intro rng pools F ids fs _ hF _ _ _ _
    exact absurd hF (by simp [List.lookup])
  | cons hd rest ih =>
    obtain ⟨k, kfs⟩ := hd
    intro rng pools F ids fs hnd hF hkind hopt hpool hne
    rw [generateObjectM_cons]
    by_cases hk : F = k
    · subst hk
      have hfs : kfs = fs := by
        rw [List.lookup_cons] at hF
        simp at hF
        exact hF
      have hkind' : kfs.kind = .fUuid := by rw [hfs]; exact hkind
      have hopt' : kfs.optional = false := by rw [hfs]; exact hopt
      have hv : (generateSingleValueM kfs F pools rng).1 ∈ ids := by
        rw [generateSingleValueM_nonopt kfs F pools rng hopt']
        exact genPrimValue_pool kfs F pools rng ids hkind' hpool hne
      by_cases hvu : (generateSingleValueM kfs F pools rng).1 = Value.vUndef
      · rw [if_pos hvu]
        have hnotin : F ∉ rest.map Prod.fst := by
          rw [List.map_cons] at hnd
          exact (List.nodup_cons.mp hnd).1
        have hlook : ((generateObjectM rest pools
            (generateSingleValueM kfs F pools rng).2).1).lookup F = none := by
          apply lookup_eq_none_of_forall_ne
          intro p hp hpk
          apply hnotin
          rw [← hpk]
          exact generateObjectM_keys rest pools _ p hp
        show getField _ F ∈ ids
        unfold getField
        rw [hlook]
        rw [← hvu]
        exact hv
      · rw [if_neg hvu]
        show getField ((F, (generateSingleValueM kfs F pools rng).1) :: _) F
          ∈ ids
        unfold getField
        rw [List.lookup_cons]
        simp only [BEq.refl]
        exact hv
    · have hF' : rest.lookup F = some fs := by
        rw [List.lookup_cons] at hF
        have : (F == k) = false := by simp [hk]
        rw [this] at hF
        exact hF
      have hnd' : (rest.map Prod.fst).Nodup := by
        rw [List.map_cons] at hnd
        exact (List.nodup_cons.mp hnd).2
      by_cases hvu : (generateSingleValueM kfs k pools rng).1 = Value.vUndef
      · rw [if_pos hvu]
        exact ih _ pools F ids fs hnd' hF' hkind hopt hpool hne
      · rw [if_neg hvu]
        show getField ((k, _) :: _) F ∈ ids
        unfold getField
        rw [List.lookup_cons]
        have : (F == k) = false := by simp [hk]
        rw [this]
        exact ih _ pools F ids fs hnd' hF' hkind hopt hpool hne

/-- Stamping does not touch fields other than `id`, `createdAt`,
`updatedAt`. -/
theorem stampSeedItem_getField (item : RecordV) (now : String) (rng : Rng)
    (F : String) (h1 : F ≠ "id") (h2 : F ≠ "createdAt")
    (h3 : F ≠ "updatedAt") :
    getField (stampSeedItem item now rng).1 F = getField item F := by
  exact getField_spreadR_of_not_mem _ _ F
    (lookup_overlay_update _ _ _ F ⟨h1, h2, h3⟩)

theorem fakerSeedItems_succ (schema : SchemaF)
    (pools : List (String × List Value)) (now : String) (n : ℕ) (rng : Rng) :
    fakerSeedItems schema pools now (n + 1) rng =
      ((stampSeedItem (generateObjectM schema pools rng).1 now
          (generateObjectM schema pools rng).2).1 ::
        (fakerSeedItems schema pools now n
          (stampSeedItem (generateObjectM schema pools rng).1 now
            (generateObjectM schema pools rng).2).2).1,
       (fakerSeedItems schema pools now n
          (stampSeedItem (generateObjectM schema pools rng).1 now
            (generateObjectM schema pools rng).2).2).2) := rfl

/-- Every record of a Faker-generated batch draws its pooled uuid field from
the pool. -/
theorem fakerSeedItems_field (schema : SchemaF)
    (pools : List (String × List Value)) (now : String) (F : String)
    (ids : List Value) (fs : FieldSpec)
    (hnd : (schema.map Prod.fst).Nodup)
    (hF : schema.lookup F = some fs) (hkind : fs.kind = .fUuid)
    (hopt : fs.optional = false) (hpool : pools.lookup F = some ids)
    (hne : ids ≠ []) (h1 : F ≠ "id") (h2 : F ≠ "createdAt")
    (h3 : F ≠ "updatedAt") :
    ∀ (n : ℕ) (rng : Rng),
      ∀ item ∈ (fakerSeedItems schema pools now n rng).1,
        getField item F ∈ ids := by
  intro n
  induction n with
  | zero => intro rng item hitem; exact absurd hitem (List.not_mem_nil _)
  | succ m ih =>
    intro rng item hitem
    rw [fakerSeedItems_succ] at hitem
    rcases List.mem_cons.mp hitem with heq | hmem
    · rw [heq, stampSeedItem_getField _ now _ F h1 h2 h3]
      exact generateObjectM_field schema rng pools F ids fs hnd hF hkind hopt
        hpool hne
    · exact ih _ item hmem

theorem option_filter_some {α : Type} (p : α → Bool) (o : Option α) (a : α)
    (h : o.filter p = some a) : o = some a ∧ p a = true := by
  cases o with
  | none => exact absurd h (by simp [Option.filter])
  | some b =>
    have hb : (if p b then some b else none) = some a := h
    by_cases hpa : p b
    · rw [if_pos hpa] at hb
      have : b = a := Option.some.inj hb
      subst this
      exact ⟨rfl, hpa⟩
    · rw [if_neg hpa] at hb
      exact absurd hb (by simp)

/-- The collection at `name` will produce at least one record when its
iteration runs: either a non-empty persisted batch is found, or fresh
generation runs with a positive seed count. -/
def producesNonempty (env : InitEnv) (name : String) (st : StoreState) :
    Prop :=
  match (env.persisted.lookup name).filter (fun l => l.length > 0) with
  | some _ => True
  | none => 1 ≤ st.seedCount

/-- A collection that occurs in the processed list, is registered, has an
uninitialized store and produces a non-empty batch ends the loop initialized,
with its non-empty id list recorded in `availableIds`. -/
theorem initLoop_initializes (env : InitEnv) (hmode : env.mode ≠ GenMode.ai)
    (C : String) (metaC : CollMeta)
    (hregC : env.registry.lookup C = some metaC) :
    ∀ (pre : List String) (s : LoopSt) (stC : StoreState),
      availOK s.stores s.avail →
      s.stores.lookup C = some stC → stC.initialized = false →
      producesNonempty env C stC → C ∈ pre →
      ∃ ids, ((initLoop env pre s).1.avail).lookup C = some ids
        ∧ ids ≠ []
        ∧ ∃ stC', ((initLoop env pre s).1.stores).lookup C = some stC'
            ∧ stC'.initialized = true
            ∧ stC'.data.map (fun kv => kv.1) = ids := by
  intro pre
  induction pre with
  | nil =>
    intro s stC _ _ _ _ hCmem
    exact absurd hCmem (List.not_mem_nil _)
  | cons name rest ih =>
    intro s stC hav hstore hCuninit hprod hCmem
    by_cases hnc : name = C
    · subst hnc
      cases hp : (env.persisted.lookup name).filter
          (fun l => l.length > 0) with
      | some persistedData =>
        obtain ⟨_, hplen⟩ := option_filter_some _ _ _ hp
        have hpne : persistedData ≠ [] := by
          intro hnil
          rw [hnil] at hplen
          simp at hplen
        have hstep := initStep_load env name s metaC stC persistedData hregC
          hstore hCuninit hp
        rw [initLoop_cons_ok env name rest s _ hstep]
        have hkeysne : (loadRecords stC.data persistedData).map
            (fun kv => kv.1) ≠ [] := by
          intro hnil
          exact loadRecords_ne_nil stC.data persistedData (Or.inr hpne)
            (List.map_eq_nil_iff.mp hnil)
        have hinv := initLoop_invariant env rest
          ⟨alSet s.stores name { stC with
             data := loadRecords stC.data persistedData
             initialized := true },
           alSet s.avail name
             ((loadRecords stC.data persistedData).map (fun kv => kv.1)),
           s.rng⟩
          (availOK_set s.stores s.avail name _ hav rfl)
        refine ⟨(loadRecords stC.data persistedData).map (fun kv => kv.1),
          ?_, hkeysne, { stC with
            data := loadRecords stC.data persistedData
            initialized := true }, ?_, rfl, rfl⟩
        · exact hinv.2.1 name _ (alSet_lookup_self _ _ _)
        · exact hinv.2.2 name _ (alSet_lookup_self _ _ _) rfl
      | none =>
        have hsc : 1 ≤ stC.seedCount := by
          unfold producesNonempty at hprod
          simp only [hp] at hprod
          exact hprod
        obtain ⟨st', rng', hsf⟩ := seedFreshStore_ok env metaC stC name
          s.avail s.rng hmode
        obtain ⟨items, hgen, hshape⟩ := seedFreshStore_shape env metaC stC
          st' name s.avail s.rng rng' hsf
        have hitemsne : items ≠ [] := generateSeedDataM_ne_nil env.mode
          (aiOf env name) stC.schema stC.seedCount _ env.now s.rng items rng'
          hsc hgen
        have hinit' : st'.initialized = true := by rw [hshape]
        have hdatane : st'.data ≠ [] := by
          rw [hshape]
          exact loadRecords_ne_nil _ _ (Or.inr hitemsne)
        have hkeysne : st'.data.map (fun kv => kv.1) ≠ [] := by
          intro hnil
          exact hdatane (List.map_eq_nil_iff.mp hnil)
        have hstep := initStep_seed env name s metaC stC st' rng' hregC
          hstore hCuninit hp hsf
        rw [initLoop_cons_ok env name rest s _ hstep]
        have hinv := initLoop_invariant env rest
          ⟨alSet s.stores name st',
           alSet s.avail name (st'.data.map (fun kv => kv.1)), rng'⟩
          (availOK_set s.stores s.avail name st' hav hinit')
        refine ⟨st'.data.map (fun kv => kv.1), ?_, hkeysne, st', ?_,
          hinit', rfl⟩
        · exact hinv.2.1 name _ (alSet_lookup_self _ _ _)
        · exact hinv.2.2 name st' (alSet_lookup_self _ _ _) hinit'
    · have hCmem' : C ∈ rest := by
        rcases List.mem_cons.mp hCmem with heq | hm
        · exact absurd heq.symm hnc
        · exact hm
      rcases initStep_cases env name s with hstep | ⟨e, hstep⟩ |
        ⟨st, st', rng', hst, hinitf, hinit', hstep⟩
      · rw [initLoop_cons_ok env name rest s s hstep]
        exact ih s stC hav hstore hCuninit hprod hCmem'
      · have := initStep_ok_of_not_ai env name s hmode
        rw [hstep] at this
        exact absurd this (by simp)
      · rw [initLoop_cons_ok env name rest s _ hstep]
        have hCname : C ≠ name := fun h => hnc h.symm
        refine ih _ stC (availOK_set s.stores s.avail name st' hav hinit')
          ?_ hCuninit hprod hCmem'
        show (alSet s.stores name st').lookup C = some stC
        rw [alSet_lookup_ne _ _ _ _ hCname]
        exact hstore

/-- C1 counterexample.  A `belongsTo` declaring collection seeded after an
*empty* target collection (here `users` with `seedCount: 0`) gets a freshly
fabricated uuid as its foreign key, which cannot be a member of the target's
(empty) id set: the claim fails as stated.  Faker mode, no persistence, the
dependency order `users` before `orders`, and a uuid-typed `userId` field
are all as intended. -/
theorem fk_integrity_cex :
    (((initializeAllCollections
        { registry := [("users", ⟨[]⟩),
            ("orders", ⟨[("user", ⟨.belongsTo, "users", "userId"⟩)]⟩)],
          seedOrder := ["users", "orders"],
          persisted := [], mode := .faker, aiOutcomes := [], now := "T" }
        [0, 1, 2, 3, 4, 5]
        { flag := false,
          stores := [
            ("users", ⟨[], [("id", ⟨.fUuid, false⟩),
              ("name", ⟨.fStr, false⟩)], 0, false⟩),
            ("orders", ⟨[], [("id", ⟨.fUuid, false⟩),
              ("userId", ⟨.fUuid, false⟩)], 1, false⟩)] }).1).stores.lookup
        "orders").map (fun st => st.data.map
          (fun kv => getField kv.2 "userId"))
      = some [Value.vStr "uuid-1"]
    ∧ (((initializeAllCollections
        { registry := [("users", ⟨[]⟩),
            ("orders", ⟨[("user", ⟨.belongsTo, "users", "userId"⟩)]⟩)],
          seedOrder := ["users", "orders"],
          persisted := [], mode := .faker, aiOutcomes := [], now := "T" }
        [0, 1, 2, 3, 4, 5]
        { flag := false,
          stores := [
            ("users", ⟨[], [("id", ⟨.fUuid, false⟩),
              ("name", ⟨.fStr, false⟩)], 0, false⟩),
            ("orders", ⟨[], [("id", ⟨.fUuid, false⟩),
              ("userId", ⟨.fUuid, false⟩)], 1, false⟩)] }).1).stores.lookup
        "users").map (fun st => st.data.map (fun kv => kv.1))
      = some []
    ∧ Value.vStr "uuid-1" ∉ ([] : List Value) := by
  exact ⟨rfl, rfl, by simp⟩

/-- C1 (amended).  Foreign-key integrity for the Faker seeding path: if a
collection `D` declares a `belongsTo` relation on a uuid-typed, non-optional
schema field `F` targeting a collection `C` that appears *earlier* in the
seeding order, is registered, uninitialized, and produces at least one record
(persisted batch or positive seed count), then after
`initializeAllCollections` every record of `D` holds in `F` an id drawn from
`C`'s (non-empty) id set. -/
theorem fk_integrity (env : InitEnv) (rng : Rng)
    (stores0 : List (String × StoreState))
    (pre post : List String) (D C : String) (metaD metaC : CollMeta)
    (rn : String) (rc : RelationConfig) (stD stC : StoreState)
    (hmode : env.mode = .faker)
    (horder : env.seedOrder = pre ++ D :: post)
    (hDpre : D ∉ pre)
    (hregD : env.registry.lookup D = some metaD)
    (hstD : stores0.lookup D = some stD)
    (hDuninit : stD.initialized = false)
    (hDdata : stD.data = [])
    (hDpersist : env.persisted.lookup D = none)
    (hrel : (rn, rc) ∈ metaD.relations)
    (hbt : rc.rtype = .belongsTo)
    (hCcoll : rc.collection = C)
    (hFschema : stD.schema.lookup rc.foreignKey =
      some { kind := .fUuid, optional := false })
    (hF1 : rc.foreignKey ≠ "id") (hF2 : rc.foreignKey ≠ "createdAt")
    (hF3 : rc.foreignKey ≠ "updatedAt")
    (hndFK : (metaD.relations.map (fun p => p.2.foreignKey)).Nodup)
    (hndSchema : (stD.schema.map Prod.fst).Nodup)
    (hCpre : C ∈ pre)
    (hregC : env.registry.lookup C = some metaC)
    (hstC : stores0.lookup C = some stC)
    (hCuninit : stC.initialized = false)
    (hCprod : producesNonempty env C stC) :
    ∃ stD' stC',
      (((initializeAllCollections env rng
          { flag := false, stores := stores0 }).1).stores).lookup D
        = some stD'
      ∧ (((initializeAllCollections env rng
          { flag := false, stores := stores0 }).1).stores).lookup C
        = some stC'
      ∧ stC'.data.map (fun kv => kv.1) ≠ []
      ∧ ∀ p ∈ stD'.data,
          getField p.2 rc.foreignKey ∈ stC'.data.map (fun kv => kv.1) := by
  have hnot_ai : env.mode ≠ .ai := by
    rw [hmode]
    exact fun h => GenMode.noConfusion h
  have houter : (((initializeAllCollections env rng
      { flag := false, stores := stores0 }).1).stores)
      = (initLoop env env.seedOrder ⟨stores0, [], rng⟩).1.stores := rfl
  rw [houter, horder, initLoop_append env pre (D :: post) ⟨stores0, [], rng⟩]
  cases hs1 : initLoop env pre ⟨stores0, [], rng⟩ with
  | mk s₁ res₁ =>
    have hres₁ : res₁ = Except.ok () := by
      have h := initLoop_ok env hnot_ai pre ⟨stores0, [], rng⟩
      rw [hs1] at h
      exact h
    subst hres₁
    show ∃ stD' stC',
      ((initLoop env (D :: post) s₁).1.stores).lookup D = some stD'
      ∧ ((initLoop env (D :: post) s₁).1.stores).lookup C = some stC'
      ∧ stC'.data.map (fun kv => kv.1) ≠ []
      ∧ ∀ p ∈ stD'.data,
          getField p.2 rc.foreignKey ∈ stC'.data.map (fun kv => kv.1)
    have hinvPre := initLoop_invariant env pre ⟨stores0, [], rng⟩
      (availOK_nil _)
    rw [hs1] at hinvPre
    have havail₁ : availOK s₁.stores s₁.avail := hinvPre.1
    have hCinit := initLoop_initializes env hnot_ai C metaC hregC pre
      ⟨stores0, [], rng⟩ stC (availOK_nil _) hstC hCuninit hCprod hCpre
    rw [hs1] at hCinit
    obtain ⟨idsC, havC, hidsne, stC', hstC₁, hstC'init, hstC'keys⟩ := hCinit
    have hDs₁ : s₁.stores.lookup D = some stD := by
      have h := initLoop_lookup_of_not_mem env pre ⟨stores0, [], rng⟩ D hDpre
      rw [hs1] at h
      exact h.trans hstD
    obtain ⟨stD', rngD, hsfD⟩ := seedFreshStore_ok env metaD stD D
      s₁.avail s₁.rng hnot_ai
    obtain ⟨itemsD, hgenD, hshapeD⟩ := seedFreshStore_shape env metaD stD stD'
      D s₁.avail s₁.rng rngD hsfD
    have hpD : (env.persisted.lookup D).filter (fun l => l.length > 0)
        = none := by
      rw [hDpersist]
      rfl
    have hstepD := initStep_seed env D s₁ metaD stD stD' rngD hregD hDs₁
      hDuninit hpD hsfD
    rw [initLoop_cons_ok env D post s₁ _ hstepD]
    have hitems : itemsD = (fakerSeedItems stD.schema
        (buildFkPools metaD.relations s₁.avail) env.now stD.seedCount
        s₁.rng).1 := by
      rw [hmode, generateSeedDataM_faker] at hgenD
      exact (congrArg Prod.fst (Except.ok.inj hgenD)).symm
    have havC' : s₁.avail.lookup rc.collection = some idsC := by
      rw [hCcoll]
      exact havC
    have hpool : (buildFkPools metaD.relations s₁.avail).lookup rc.foreignKey
        = some idsC :=
      buildFkPools_lookup metaD.relations s₁.avail rn rc idsC hrel hbt hndFK
        havC' hidsne
    have hFK : ∀ item ∈ itemsD, getField item rc.foreignKey ∈ idsC := by
      rw [hitems]
      intro item hitem
      exact fakerSeedItems_field stD.schema _ env.now rc.foreignKey idsC
        { kind := .fUuid, optional := false } hndSchema hFschema rfl rfl hpool
        hidsne hF1 hF2 hF3 stD.seedCount s₁.rng item hitem
    have hstD'data : ∀ p ∈ stD'.data, getField p.2 rc.foreignKey ∈ idsC := by
      intro p hp
      rw [hshapeD] at hp
      have hp' : p ∈ loadRecords stD.data itemsD := hp
      rcases loadRecords_mem stD.data itemsD p hp' with h | h
      · exact hFK p.2 h
      · rw [hDdata] at h
        exact absurd h (List.not_mem_nil _)
    have hinit' : stD'.initialized = true := by rw [hshapeD]
    have hinvPost := initLoop_invariant env post
      ⟨alSet s₁.stores D stD',
       alSet s₁.avail D (stD'.data.map (fun kv => kv.1)), rngD⟩
      (availOK_set s₁.stores s₁.avail D stD' havail₁ hinit')
    have hCD : C ≠ D := fun h => hDpre (h ▸ hCpre)
    refine ⟨stD', stC', ?_, ?_, ?_, ?_⟩
    · exact hinvPost.2.2 D stD' (alSet_lookup_self _ _ _) hinit'
    · refine hinvPost.2.2 C stC' ?_ hstC'init
      show (alSet s₁.stores D stD').lookup C = some stC'
      rw [alSet_lookup_ne _ _ _ _ hCD]
      exact hstC₁
    · rw [hstC'keys]
      exact hidsne
    · intro p hp
      rw [hstC'keys]
      exact hstD'data p hp

theorem fk_integrity_witness :
    ∃ stD' stC',
      (((initializeAllCollections
          { registry := [("users", ⟨[]⟩),
              ("orders", ⟨[("user", ⟨.belongsTo, "users", "userId"⟩)]⟩)],
            seedOrder := ["users", "orders"],
            persisted := [], mode := .faker, aiOutcomes := [], now := "T" }
          [0, 1, 2, 3, 4, 5]
          { flag := false, stores := [
              ("users", ⟨[], [("id", ⟨.fUuid, false⟩),
                ("name", ⟨.fStr, false⟩)], 1, false⟩),
              ("orders", ⟨[], [("id", ⟨.fUuid, false⟩),
                ("userId", ⟨.fUuid, false⟩)], 1, false⟩)] }).1).stores).lookup
        "orders" = some stD'
      ∧ (((initializeAllCollections
          { registry := [("users", ⟨[]⟩),
              ("orders", ⟨[("user", ⟨.belongsTo, "users", "userId"⟩)]⟩)],
            seedOrder := ["users", "orders"],
            persisted := [], mode := .faker, aiOutcomes := [], now := "T" }
          [0, 1, 2, 3, 4, 5]
          { flag := false, stores := [
              ("users", ⟨[], [("id", ⟨.fUuid, false⟩),
                ("name", ⟨.fStr, false⟩)], 1, false⟩),
              ("orders", ⟨[], [("id", ⟨.fUuid, false⟩),
                ("userId", ⟨.fUuid, false⟩)], 1, false⟩)] }).1).stores).lookup
        "users" = some stC'
      ∧ stC'.data.map (fun kv => kv.1) ≠ []
      ∧ ∀ p ∈ stD'.data,
          getField p.2 "userId" ∈ stC'.data.map (fun kv => kv.1) :=
  fk_integrity
    { registry := [("users", ⟨[]⟩),
        ("orders", ⟨[("user", ⟨.belongsTo, "users", "userId"⟩)]⟩)],
      seedOrder := ["users", "orders"],
      persisted := [], mode := .faker, aiOutcomes := [], now := "T" }
    [0, 1, 2, 3, 4, 5]
    [("users", ⟨[], [("id", ⟨.fUuid, false⟩),
        ("name", ⟨.fStr, false⟩)], 1, false⟩),
     ("orders", ⟨[], [("id", ⟨.fUuid, false⟩),
        ("userId", ⟨.fUuid, false⟩)], 1, false⟩)]
    ["users"] [] "orders" "users"
    ⟨[("user", ⟨.belongsTo, "users", "userId"⟩)]⟩ ⟨[]⟩
    "user" ⟨.belongsTo, "users", "userId"⟩
    ⟨[], [("id", ⟨.fUuid, false⟩), ("userId", ⟨.fUuid, false⟩)], 1, false⟩
    ⟨[], [("id", ⟨.fUuid, false⟩), ("name", ⟨.fStr, false⟩)], 1, false⟩
    rfl rfl (by decide) rfl rfl rfl rfl rfl (by decide) rfl rfl rfl
    (by decide) (by decide) (by decide) (by decide) (by decide) (by decide)
    rfl rfl rfl (Nat.le_refl 1)

/-! ### Response shaping (`src/src/defineCollection.ts`):
`projectResponse` (lines 105-132), `buildResponseFromSchema` (138-167),
`buildField` (172-203), `buildNestedObject` (209-228),
`calculateMetaField` (234-266), and the local `list()` path (403-456). -/

/-- A `collectionsMeta.*` schema-type tag (string-prefix dispatch in the
source, lines 240-265). The `count:F:V` target is a parsed JSON literal in
the source; it is carried here as a `Value`. -/
inductive MetaTag where
  | total
  | page
  | limit
  | totalPages
  | avgF (f : String)
  | sumF (f : String)
  | minF (f : String)
  | maxF (f : String)
  | countF (f : String) (target : Value)

/-- A field of a declared response schema, as dispatched on by `buildField`:
an array field carries its element object schema's keys (the only part
`projectResponse` reads), an object field carries a nested shape, a
`collectionsMeta.*` field carries its tag, and any other (primitive) field
is built as `null`. -/
inductive RField where
  | arrOf (projFields : List String)
  | objOf (shape : List (String × RField))
  | metaF (tag : MetaTag)
  | prim

/-- A value of a built response object. -/
inductive RValue where
  | rNull
  | rNum (q : ℚ)
  | rItems (items : List RecordV)
  | rObj (fields : List (String × RValue))

/-- `Number(item[fieldName]) || 0`: `NaN` (here `none`) and `0` both fall to
`0`. -/
def numOrZero (v : Value) : ℚ :=
  (toNumber v).getD 0

/-- `field in item`: key presence, regardless of the stored value. -/
def hasField (r : RecordV) (k : String) : Bool :=
  (r.lookup k).isSome

/-- `projectItem` inside `projectResponse` (lines 116-124): picks, in schema
order, exactly the schema fields present in the item. -/
def projectItem (fields : List String) (item : RecordV) : RecordV :=
  fields.filterMap
    (fun f => if hasField item f then some (f, getField item f) else none)

/-- `projectResponse` on an array (lines 110-127): with an empty field list
the data passes through untouched, otherwise each item is projected. -/
def projectResponse (fields : List String) (data : List RecordV) :
    List RecordV :=
  if fields = [] then data else data.map (projectItem fields)

/-- Modelled from the spec: `resolveJoins` lives in `src/src/relations.ts`,
which is absent from the source tree.  Per the spec it attaches values only
for `join` fields of the output schema; an element schema with no join
fields — the only kind representable in `RField` — is returned unchanged,
so join resolution is the identity here. -/
def resolveJoinsM (data : List RecordV) : List RecordV :=
  data

/-- `calculateMetaField` (lines 234-266).  In the local `list()` path the
pagination object is always present, so the `pagination?.x || fallback`
fallbacks fire exactly when `x` is `0` (falsy).  `avg`/`sum` reduce with
`Number(item[f]) || 0`; `min`/`max` keep only non-`NaN` coercions and
default to `0` on an empty value list; `count` uses strict equality. -/
def calculateMetaField (tag : MetaTag) (data : List RecordV)
    (pg : Pagination) : RValue :=
  match tag with
  | .total => .rNum (if pg.total = 0 then (data.length : ℚ) else pg.total)
  | .page => .rNum (if pg.page = 0 then 1 else pg.page)
  | .limit => .rNum (if pg.limit = 0 then (data.length : ℚ) else pg.limit)
  | .totalPages => .rNum (if pg.totalPages = 0 then 1 else pg.totalPages)
  | .avgF f =>
      .rNum (if 0 < data.length
        then (data.foldl (fun acc item => acc + numOrZero (getField item f))
          0) / (data.length : ℚ)
        else 0)
  | .sumF f =>
      .rNum (data.foldl (fun acc item => acc + numOrZero (getField item f)) 0)
  | .minF f =>
      .rNum (match data.filterMap (fun item => toNumber (getField item f))
        with
        | [] => 0
        | v :: vs => vs.foldl min v)
  | .maxF f =>
      .rNum (match data.filterMap (fun item => toNumber (getField item f))
        with
        | [] => 0
        | v :: vs => vs.foldl max v)
  | .countF f target =>
      .rNum ((data.filter (fun item => getField item f = target)).length)

mutual

/-- `buildField` (lines 172-203): dispatch on the schema type of one
response field.  `relations` reflects the truthiness of
`collectionConfig.relations` guarding the `resolveJoins` call. -/
def buildField (relations : Bool) (sourceData : List RecordV)
    (pg : Pagination) : RField → RValue
  | .arrOf projFields =>
      .rItems (projectResponse projFields
        (if relations then resolveJoinsM sourceData else sourceData))
  | .objOf shape => .rObj (buildShape relations sourceData pg shape)
  | .metaF tag => calculateMetaField tag sourceData pg
  | .prim => .rNull

/-- The field loop shared by `buildResponseFromSchema` (lines 155-164) and
`buildNestedObject` (lines 213-225): every field of the shape is built from
the same `sourceData` and `pagination`. -/
def buildShape (relations : Bool) (sourceData : List RecordV)
    (pg : Pagination) : List (String × RField) → List (String × RValue)
  | [] => []
  | (k, f) :: rest =>
      (k, buildField relations sourceData pg f) ::
        buildShape relations sourceData pg rest

end

/-- `buildResponseFromSchema` (lines 138-167) on a local query result:
`sourceData = result.data` — the *current page* returned by
`store.query` — and `pagination = result.pagination`. -/
def buildResponseFromSchema (relations : Bool) (result : QueryResult)
    (shape : List (String × RField)) : List (String × RValue) :=
  buildShape relations result.data result.pagination shape

/-- The local `list()` path with a response-envelope schema (lines 424-444):
`result = store.query(options)` followed by
`buildResponseFromSchema(result, responseSchema, config)`. -/
def listEnvelope (relations : Bool) (items0 : List RecordV)
    (o : QueryOptions) (shape : List (String × RField)) :
    List (String × RValue) :=
  buildResponseFromSchema relations (queryModel items0 o) shape

/-- C2.  The aggregate meta fields are computed over the *current page*, not
the full dataset: for three records with prices 10, 20, 30 and an envelope
schema with `avg:price`, `sum:price`, `max:price` and `total`, requesting
`limit = 1` yields `avg = 10`, `sum = 10`, `max = 10` on page 1 and
`avg = 20` on page 2 — while the claim demands `avg = 20`, `sum = 60`,
`max = 30` on any page.  (`total` alone comes from the pagination context
and does equal 3.)  `buildResponseFromSchema` passes `result.data`, the
paginated slice, as the data argument of `calculateMetaField`. -/
theorem aggregates_page_scoped :
    (listEnvelope false
        [[("id", Value.vStr "a"), ("price", Value.vNum 10)],
         [("id", Value.vStr "b"), ("price", Value.vNum 20)],
         [("id", Value.vStr "c"), ("price", Value.vNum 30)]]
        { page? := some 1, limit? := some 1 }
        [("items", RField.arrOf ["id", "price"]),
         ("avg", RField.metaF (MetaTag.avgF "price")),
         ("sum", RField.metaF (MetaTag.sumF "price")),
         ("max", RField.metaF (MetaTag.maxF "price")),
         ("total", RField.metaF MetaTag.total)]).lookup "avg"
      = some (RValue.rNum 10)
    ∧ (listEnvelope false
        [[("id", Value.vStr "a"), ("price", Value.vNum 10)],
         [("id", Value.vStr "b"), ("price", Value.vNum 20)],
         [("id", Value.vStr "c"), ("price", Value.vNum 30)]]
        { page? := some 2, limit? := some 1 }
        [("items", RField.arrOf ["id", "price"]),
         ("avg", RField.metaF (MetaTag.avgF "price")),
         ("sum", RField.metaF (MetaTag.sumF "price")),
         ("max", RField.metaF (MetaTag.maxF "price")),
         ("total", RField.metaF MetaTag.total)]).lookup "avg"
      = some (RValue.rNum 20)
    ∧ (listEnvelope false
        [[("id", Value.vStr "a"), ("price", Value.vNum 10)],
         [("id", Value.vStr "b"), ("price", Value.vNum 20)],
         [("id", Value.vStr "c"), ("price", Value.vNum 30)]]
        { page? := some 1, limit? := some 1 }
        [("items", RField.arrOf ["id", "price"]),
         ("avg", RField.metaF (MetaTag.avgF "price")),
         ("sum", RField.metaF (MetaTag.sumF "price")),
         ("max", RField.metaF (MetaTag.maxF "price")),
         ("total", RField.metaF MetaTag.total)]).lookup "sum"
      = some (RValue.rNum 10)
    ∧ (listEnvelope false
        [[("id", Value.vStr "a"), ("price", Value.vNum 10)],
         [("id", Value.vStr "b"), ("price", Value.vNum 20)],
         [("id", Value.vStr "c"), ("price", Value.vNum 30)]]
        { page? := some 1, limit? := some 1 }
        [("items", RField.arrOf ["id", "price"]),
         ("avg", RField.metaF (MetaTag.avgF "price")),
         ("sum", RField.metaF (MetaTag.sumF "price")),
         ("max", RField.metaF (MetaTag.maxF "price")),
         ("total", RField.metaF MetaTag.total)]).lookup "max"
      = some (RValue.rNum 10)
    ∧ (listEnvelope false
        [[("id", Value.vStr "a"), ("price", Value.vNum 10)],
         [("id", Value.vStr "b"), ("price", Value.vNum 20)],
         [("id", Value.vStr "c"), ("price", Value.vNum 30)]]
        { page? := some 1, limit? := some 1 }
        [("items", RField.arrOf ["id", "price"]),
         ("avg", RField.metaF (MetaTag.avgF "price")),
         ("sum", RField.metaF (MetaTag.sumF "price")),
         ("max", RField.metaF (MetaTag.maxF "price")),
         ("total", RField.metaF MetaTag.total)]).lookup "total"
      = some (RValue.rNum 3)
    ∧ RValue.rNum 10 ≠ RValue.rNum 20
    ∧ RValue.rNum 10 ≠ RValue.rNum 60
    ∧ RValue.rNum 10 ≠ RValue.rNum 30 := by
  refine ⟨?_, ?_, ?_, rfl, rfl, ?_, ?_, ?_⟩
  · exact Eq.trans
      (rfl : _ = some (RValue.rNum ((0 + 10) / (((1 : ℕ) : ℚ))))) (by norm_num)
  · exact Eq.trans
      (rfl : _ = some (RValue.rNum ((0 + 20) / (((1 : ℕ) : ℚ))))) (by norm_num)
  · exact Eq.trans (rfl : _ = some (RValue.rNum (0 + 10))) (by norm_num)
  · intro h
    exact absurd (RValue.rNum.inj h) (by norm_num)
  · intro h
    exact absurd (RValue.rNum.inj h) (by norm_num)
  · intro h
    exact absurd (RValue.rNum.inj h) (by norm_num)

end Symulate
